import Mathlib

/-!
Shallow embedding of the TMDb reconciliation engine of the repository
(scripts `tmdb_match_seen_sc.py`, `tmdb_match_br.py`,
`tmdb_match_watchlist_sc.py`, `tmdb_match_nas.py`, `tmdb_apply_br.py`,
`tmdb_apply_seen_sc.py`), together with proofs of the spec's testable
properties.  Strings are modelled as `List Char`; Python regular
expressions used by the scripts are implemented directly as structurally
recursive functions on character lists.
-/

namespace ProjetIA

/-! ## Character classes (Python regex classes used by the scripts) -/

/-- Python `\s` restricted to the ASCII whitespace characters. -/
def pyIsSpace (c : Char) : Bool :=
  c.toNat = 32 || c.toNat = 9 || c.toNat = 10 || c.toNat = 13 ||
  c.toNat = 11 || c.toNat = 12

/-- Membership in the regex class `[a-z0-9]`. -/
def isAlnum (c : Char) : Bool :=
  (97 ≤ c.toNat && c.toNat ≤ 122) || (48 ≤ c.toNat && c.toNat ≤ 57)

/-- Membership in the regex class `[a-z0-9 ]`. -/
def isGoodChar (c : Char) : Bool :=
  isAlnum c || c.toNat = 32

/-- ASCII case folding, the effect of Python `str.lower` on ASCII text. -/
def lowerChar (c : Char) : Char :=
  if 65 ≤ c.toNat ∧ c.toNat ≤ 90 then Char.ofNat (c.toNat + 32) else c

/-- ASCII upper-casing, the effect of Python `str.upper` on ASCII text. -/
def upperChar (c : Char) : Char :=
  if 97 ≤ c.toNat ∧ c.toNat ≤ 122 then Char.ofNat (c.toNat - 32) else c

def lowerStr (s : List Char) : List Char := s.map lowerChar

def upperStr (s : List Char) : List Char := s.map upperChar

/-! ## Python string operations -/

/-- Auxiliary for `stripBrackets`: the optional second argument holds the
characters read since an as yet unclosed `[` (in reverse order). -/
def sbAux : List Char → Option (List Char) → List Char
  | [], none => []
  | [], some buf => '[' :: buf.reverse
  | c :: rest, none =>
    if c = '[' then sbAux rest (some []) else c :: sbAux rest none
  | c :: rest, some buf =>
    if c = ']' then sbAux rest none else sbAux rest (some (c :: buf))

/-- Python `re.sub(r"\[[^\]]*\]", "", s)`: delete every bracketed group;
an unclosed `[` is kept verbatim. -/
def stripBrackets (s : List Char) : List Char := sbAux s none

/-- Auxiliary for `subBad`: the flag records whether the previous
character belonged to a run of disallowed characters. -/
def subBadAux : Bool → List Char → List Char
  | _, [] => []
  | inRun, c :: rest =>
    if isGoodChar c then c :: subBadAux false rest
    else if inRun then subBadAux true rest
    else ' ' :: subBadAux true rest

/-- Python `re.sub(r"[^a-z0-9 ]+", " ", s)`: each maximal run of
disallowed characters becomes a single space. -/
def subBad (s : List Char) : List Char := subBadAux false s

/-- Auxiliary for `collapseWS`: the flag records whether the previous
character belonged to a whitespace run whose space was already emitted. -/
def collapseAux : Bool → List Char → List Char
  | _, [] => []
  | inRun, c :: rest =>
    if pyIsSpace c then
      if inRun then collapseAux true rest else ' ' :: collapseAux true rest
    else c :: collapseAux false rest

/-- Python `re.sub(r"\s+", " ", s)`: each maximal whitespace run becomes
a single space. -/
def collapseWS (s : List Char) : List Char := collapseAux false s

/-- Remove trailing whitespace. -/
def stripTrailing : List Char → List Char
  | [] => []
  | c :: rest =>
    match stripTrailing rest with
    | [] => if pyIsSpace c then [] else [c]
    | r => c :: r

/-- Python `str.strip()` (whitespace on both ends). -/
def pyStrip (s : List Char) : List Char :=
  stripTrailing (s.dropWhile pyIsSpace)

/-- `startsWith l p` is true when `p` is an initial segment of `l`
(Python `str.startswith`). -/
def startsWith : List Char → List Char → Bool
  | _, [] => true
  | [], _ :: _ => false
  | a :: as, b :: bs => a = b && startsWith as bs

/-- `containsSub l p` is true when `p` occurs contiguously in `l`
(Python `p in l`; in particular the empty string occurs in every
string). -/
def containsSub : List Char → List Char → Bool
  | [], p => p.isEmpty
  | l@(_ :: rest), p => startsWith l p || containsSub rest p

/-- Decimal digits of a natural number, fuel-driven so that it is
structurally recursive. -/
def natToCharsFuel : Nat → Nat → List Char
  | 0, _ => []
  | fuel + 1, n =>
    if n < 10 then [Char.ofNat (48 + n)]
    else natToCharsFuel fuel (n / 10) ++ [Char.ofNat (48 + n % 10)]

/-- Python `str(n)` for a natural number. -/
def natToChars (n : Nat) : List Char := natToCharsFuel (n + 1) n

/-- Python `str(i)` for an integer. -/
def intToChars (i : Int) : List Char :=
  if i < 0 then '-' :: natToChars i.natAbs else natToChars i.toNat

/-! ## Normalizers (the two `norm` variants of the scripts) -/

/-- `norm` of `tmdb_match_seen_sc.py` and `tmdb_match_watchlist_sc.py`:
lower-case, delete bracketed groups, replace runs outside `[a-z0-9 ]` by
one space, collapse whitespace, strip. -/
def norm (s : List Char) : List Char :=
  pyStrip (collapseWS (subBad (stripBrackets (lowerStr s))))

/-- `norm` of `tmdb_match_br.py`: strip, lower-case, collapse
whitespace. -/
def normBr (s : List Char) : List Char :=
  collapseWS (lowerStr (pyStrip s))

/-! ## Keyword simplification (`simplify_title` of the watchlist matcher) -/

/-- Separators of the regex `[:–\-]` (colon, en dash, hyphen). -/
def isSep (c : Char) : Bool :=
  c.toNat = 58 || c.toNat = 8211 || c.toNat = 45

/-- Auxiliary for `tokenize`: the accumulator holds the current
alphanumeric run in reverse order. -/
def tokenizeAux : List Char → List Char → List (List Char)
  | [], [] => []
  | [], acc => [acc.reverse]
  | c :: rest, acc =>
    if isAlnum c then tokenizeAux rest (c :: acc)
    else
      match acc with
      | [] => tokenizeAux rest []
      | _ => acc.reverse :: tokenizeAux rest []

/-- Python `re.findall(r"[a-z0-9]+", t)`. -/
def tokenize (t : List Char) : List (List Char) := tokenizeAux t []

/-- Stop words dropped by `simplify_title`. -/
def STOP : List (List Char) :=
  ["le".data, "la".data, "les".data, "un".data, "une".data,
   "the".data, "a".data, "an".data, "of".data]

/-- `simplify_title` of `tmdb_match_watchlist_sc.py`: lower-case, delete
bracketed groups, cut at the first colon/dash, keep at most five
non-stop-word tokens joined by spaces. -/
def simplify_title (title : List Char) : List Char :=
  let t := lowerStr title
  let t := stripBrackets t
  let t := t.takeWhile (fun c => !isSep c)
  let words := (tokenize t).filter (fun w => !STOP.contains w)
  pyStrip (List.intercalate " ".data (words.take 5))

/-! ## Data model -/

/-- One TMDb search result, the fields read by the matchers
(`{id, title, original_title, release_date}`); an absent JSON field is
the empty string, matching the scripts' `cand.get(...) or ""` reads. -/
structure Candidate where
  id : Nat
  title : List Char
  original_title : List Char
  release_date : List Char
deriving DecidableEq, Repr

/-- `match_status` values of the import tables. -/
inductive MatchStatus where
  | PENDING
  | MATCHED
  | AMBIGUOUS
  | NOT_FOUND
  | ERROR
  | APPLIED
deriving DecidableEq, Repr

/-- Result of resolving one record: the status and `tmdb_id`/`match_note`
written back, plus the list of TMDb ids for which the credits endpoint
was called while disambiguating. -/
structure Outcome where
  status : MatchStatus
  tmdbId : Option Nat
  note : List Char
  creditIds : List Nat
deriving DecidableEq, Repr

/-! ## Scorer -/

/-- The `+3` release-year rule shared by the scorers: Python
`if year_q:` is false for `None` and for `0`. -/
def year_bonus (year_q : Option Nat) (cand : Candidate) : Nat :=
  match year_q with
  | some y => if y ≠ 0 ∧ startsWith cand.release_date (natToChars y) then 3 else 0
  | none => 0

/-- `score_candidate` of `tmdb_match_seen_sc.py` (also the inline scoring
loop of `tmdb_match_watchlist_sc.py`): exact normalized title match on
either title field scores 5, otherwise containment of the query title in
a candidate title scores 2; the year rule adds 3. -/
def score_candidate (title_q : List Char) (year_q : Option Nat) (cand : Candidate) : Nat :=
  let title := norm cand.title
  let orig := norm cand.original_title
  let s1 :=
    if title = title_q ∨ orig = title_q then 5
    else if containsSub title title_q || containsSub orig title_q then 2
    else 0
  s1 + year_bonus year_q cand

/-- `score_candidate` of `tmdb_match_br.py`: same shape but with the
`norm` of that script and a guard requiring a nonempty query title for
the containment rule. -/
def score_candidate_br (q_title : List Char) (q_year : Option Nat) (cand : Candidate) : Nat :=
  let title := normBr cand.title
  let orig := normBr cand.original_title
  let s1 :=
    if title = q_title ∨ orig = q_title then 5
    else if q_title ≠ [] ∧ (containsSub title q_title || containsSub orig q_title) then 2
    else 0
  s1 + year_bonus q_year cand

/-- Modelled from the spec's words only (§4.3, "substring containment in
either direction scores +2"); kept solely to contrast with the
implemented scorers, which test one direction. -/
def score_spec (title_q : List Char) (year_q : Option Nat) (cand : Candidate) : Nat :=
  let title := norm cand.title
  let orig := norm cand.original_title
  let s1 :=
    if title = title_q ∨ orig = title_q then 5
    else if containsSub title title_q || containsSub orig title_q ||
            containsSub title_q title || containsSub title_q orig then 2
    else 0
  s1 + year_bonus year_q cand

/-! ## Stable descending sort

Python `list.sort(key=..., reverse=True)` is a stable sort; a stable
descending insertion sort computes the same list. -/

/-- Insert into a descending-sorted list, after all strictly greater keys
and before equal ones (which preserves the original relative order of
equal keys). -/
def insDesc {α : Type} (key : α → Nat) (a : α) : List α → List α
  | [] => [a]
  | b :: bs => if key a < key b then b :: insDesc key a bs else a :: b :: bs

/-- Stable sort, descending by `key`. -/
def sortDesc {α : Type} (key : α → Nat) : List α → List α
  | [] => []
  | x :: xs => insDesc key x (sortDesc key xs)

/-- The tie test of the matchers: at least two entries and the top two
scores equal. -/
def topTwoTied (l : List (Nat × Candidate)) : Bool :=
  match l with
  | a :: b :: _ => a.1 == b.1
  | _ => false

/-! ## Director disambiguation loops -/

/-- Director-overlap test (`any(hint in d or d in hint for d in dirs)`):
bidirectional substring containment against each fetched director. -/
def dirOverlap (hint : List Char) (dirs : List (List Char)) : Bool :=
  dirs.any (fun d => containsSub d hint || containsSub hint d)

/-- The tie-break loop of `tmdb_match_seen_sc.py` / `tmdb_match_br.py`
over the scored candidates: fetch each candidate's directors in order,
stop at the first overlap.  Returns the chosen candidate (if any) and
the ids for which credits were fetched. -/
def director_scan (dirOf : Nat → List (List Char)) (hint : List Char) :
    List (Nat × Candidate) → Option Candidate × List Nat
  | [] => (none, [])
  | (_, c) :: rest =>
    if dirOverlap hint (dirOf c.id) then (some c, [c.id])
    else
      let (r, ids) := director_scan dirOf hint rest
      (r, c.id :: ids)

/-- The tie-break loop of `tmdb_match_watchlist_sc.py` over raw search
results (a failed credits call is the oracle returning `[]`). -/
def wl_scan (dirOf : Nat → List (List Char)) (hint : List Char) :
    List Candidate → Option Nat × List Nat
  | [] => (none, [])
  | c :: rest =>
    if dirOverlap hint (dirOf c.id) then (some c.id, [c.id])
    else
      let (r, ids) := wl_scan dirOf hint rest
      (r, c.id :: ids)

/-! ## The seen-list matcher (`tmdb_match_seen_sc.py`, per record) -/

/-- Scored candidate list of the seen matcher: the first ten results,
each paired with its score. -/
def seen_scored (raw_title : List Char) (raw_year : Option Nat)
    (results : List Candidate) : List (Nat × Candidate) :=
  (results.take 10).map (fun c => (score_candidate (norm raw_title) raw_year c, c))

/-- The seen matcher's candidates sorted by score, descending, stable. -/
def seen_sorted (raw_title : List Char) (raw_year : Option Nat)
    (results : List Candidate) : List (Nat × Candidate) :=
  sortDesc (fun p => p.1) (seen_scored raw_title raw_year results)

/-- Per-record resolution of `tmdb_match_seen_sc.py`: score and rank the
results, run the director loop over the top three whenever the top two
scores tie (even with an empty hint), and write the outcome. -/
def seen_resolve (dirOf : Nat → List (List Char)) (raw_title : List Char)
    (raw_year : Option Nat) (raw_directors : List Char)
    (results : List Candidate) : Outcome :=
  let director_q := norm raw_directors
  if results = [] then
    { status := .NOT_FOUND, tmdbId := none,
      note := "no result for '".data ++ raw_title ++ "'".data, creditIds := [] }
  else
    match seen_sorted raw_title raw_year results with
    | [] =>
      { status := .NOT_FOUND, tmdbId := none, note := [], creditIds := [] }
    | (best_score, best) :: rest =>
      let ambiguous : Bool :=
        match rest with
        | (s2, _) :: _ => s2 == best_score
        | [] => false
      let note := "score=".data ++ natToChars best_score
      if ambiguous then
        match director_scan dirOf director_q
            (((best_score, best) :: rest).take 3) with
        | (some c, ids) =>
          { status := .MATCHED, tmdbId := some c.id,
            note := note ++ " | director_match".data, creditIds := ids }
        | (none, ids) =>
          { status := .AMBIGUOUS, tmdbId := some best.id,
            note := note, creditIds := ids }
      else
        { status := .MATCHED, tmdbId := some best.id,
          note := note, creditIds := [] }

/-- The seen matcher issues a single search with the raw title: there is
no fallback query in `tmdb_match_seen_sc.py`. -/
def seen_run (searchFn : List Char → List Candidate)
    (dirOf : Nat → List (List Char)) (raw_title : List Char)
    (raw_year : Option Nat) (raw_directors : List Char) : Outcome :=
  seen_resolve dirOf raw_title raw_year raw_directors (searchFn raw_title)

/-! ## The Blu-ray matcher (`tmdb_match_br.py`, per record) -/

/-- `director_hint` of `tmdb_match_br.py`: prefer `raw_creators`, else
first plus last name. -/
def director_hint (raw_creators raw_first_name raw_last_name : List Char) : List Char :=
  if raw_creators ≠ [] then normBr raw_creators
  else
    let full := pyStrip (raw_first_name ++ " ".data ++ raw_last_name)
    if full ≠ [] then normBr full else []

/-- Scored candidate list of the Blu-ray matcher (its query year is
hard-coded to `None`). -/
def br_scored (title_clean : List Char) (results : List Candidate) :
    List (Nat × Candidate) :=
  (results.take 10).map (fun c => (score_candidate_br (normBr title_clean) none c, c))

/-- The Blu-ray matcher's candidates sorted by score, descending, stable. -/
def br_sorted (title_clean : List Char) (results : List Candidate) :
    List (Nat × Candidate) :=
  sortDesc (fun p => p.1) (br_scored title_clean results)

/-- Per-record resolution of `tmdb_match_br.py`: score and rank, and when
the top two scores tie and the director hint is nonempty, run the
director loop over the top three scored candidates. -/
def br_resolve (dirOf : Nat → List (List Char)) (title_clean : List Char)
    (dir_hint : List Char) (results : List Candidate) : Outcome :=
  if results = [] then
    { status := .NOT_FOUND, tmdbId := none,
      note := "no result for '".data ++ title_clean ++ "'".data, creditIds := [] }
  else
    match br_sorted title_clean results with
    | [] =>
      { status := .NOT_FOUND, tmdbId := none, note := [], creditIds := [] }
    | (best_score, best) :: rest =>
      let ambiguous : Bool :=
        match rest with
        | (s2, _) :: _ => s2 == best_score
        | [] => false
      let note := "best_score=".data ++ natToChars best_score
      if ambiguous ∧ dir_hint ≠ [] then
        match director_scan dirOf dir_hint
            (((best_score, best) :: rest).take 3) with
        | (some c, ids) =>
          { status := .MATCHED, tmdbId := some c.id,
            note := "single result | ".data ++ note ++ " | dir_match=".data ++ dir_hint,
            creditIds := ids }
        | (none, ids) =>
          { status := .AMBIGUOUS, tmdbId := some best.id,
            note := "ambiguous | ".data ++ note, creditIds := ids }
      else if ambiguous then
        { status := .AMBIGUOUS, tmdbId := some best.id,
          note := "ambiguous | ".data ++ note, creditIds := [] }
      else
        { status := .MATCHED, tmdbId := some best.id,
          note := "single result | ".data ++ note, creditIds := [] }

/-! ## The watchlist matcher (`tmdb_match_watchlist_sc.py`, per record) -/

/-- The best-candidate fold of the watchlist matcher: keep the first
candidate whose score strictly exceeds the running best (initially
`-1`). -/
def wl_best (title_q : List Char) (year_q : Option Nat) :
    List Candidate → Int → Option Candidate → Int × Option Candidate
  | [], bs, b => (bs, b)
  | c :: rest, bs, b =>
    let s : Int := score_candidate title_q year_q c
    if s > bs then wl_best title_q year_q rest s (some c)
    else wl_best title_q year_q rest bs b

/-- The queries the watchlist matcher issues: the raw title, then — only
when it returned nothing and the simplified query is nonempty and
different — the simplified query. -/
def wl_queries (searchFn : List Char → List Candidate)
    (raw_title : List Char) : List (List Char) :=
  if searchFn raw_title = [] then
    let q2 := simplify_title raw_title
    if q2 ≠ [] ∧ q2 ≠ raw_title then [raw_title, q2] else [raw_title]
  else [raw_title]

/-- The decision phase of `tmdb_match_watchlist_sc.py`, applied to the
result list of whichever search pass was used: inline scoring over the
first ten results, then — whenever more than one result exists and the
hint is nonempty — a director pass over the first five results. -/
def wl_decide (dirOf : Nat → List (List Char)) (raw_title : List Char)
    (raw_year : Option Nat) (raw_directors : List Char)
    (results : List Candidate) (used_q : List Char) : Outcome :=
  let director_q := norm raw_directors
  if results = [] then
    { status := .NOT_FOUND, tmdbId := none,
      note := "no result | q=".data ++ used_q, creditIds := [] }
  else
    let title_q := norm raw_title
    let bestPair := wl_best title_q raw_year (results.take 10) (-1) none
    let chosen_id := match bestPair.2 with | some c => c.id | none => 0
    let note := "score=".data ++ intToChars bestPair.1 ++ " | q=".data ++ used_q
    let ambiguous : Bool := results.length > 1
    if ambiguous ∧ director_q ≠ [] then
      match wl_scan dirOf director_q (results.take 5) with
      | (some pid, ids) =>
        { status := .MATCHED, tmdbId := some pid,
          note := note ++ " | director_match".data, creditIds := ids }
      | (none, ids) =>
        { status := .AMBIGUOUS, tmdbId := some chosen_id,
          note := note, creditIds := ids }
    else if ambiguous then
      { status := .AMBIGUOUS, tmdbId := some chosen_id, note := note, creditIds := [] }
    else
      { status := .MATCHED, tmdbId := some chosen_id, note := note, creditIds := [] }

/-- Per-record resolution of `tmdb_match_watchlist_sc.py`: two search
passes (raw then simplified), then the decision phase. -/
def wl_resolve (searchFn : List Char → List Candidate)
    (dirOf : Nat → List (List Char)) (raw_title : List Char)
    (raw_year : Option Nat) (raw_directors : List Char) : Outcome :=
  let r1 := searchFn raw_title
  let q2 := simplify_title raw_title
  let resultsUsed :=
    if r1 = [] then
      if q2 ≠ [] ∧ q2 ≠ raw_title then (searchFn q2, q2) else (r1, raw_title)
    else (r1, raw_title)
  wl_decide dirOf raw_title raw_year raw_directors resultsUsed.1 resultsUsed.2

/-! ## Catalog client (`tmdb_get`, shared by the scripts) -/

/-- Result of one `tmdb_get` call: the parsed JSON of the first non-429
attempt (recorded by its attempt index), an exception from
`raise_for_status`, or the rate-limit `RuntimeError` once the retry
budget is exhausted. -/
inductive TmdbResult where
  | json (attempt : Nat)
  | httpError (code : Nat)
  | rateLimited
deriving DecidableEq, Repr

/-- The retry loop of `tmdb_get`, driven by the HTTP status of each
attempt: a 429 sleeps `1.5 + i` seconds and retries, any other status
at or above 400 raises, anything else returns the body.  The second
component collects the sleep durations. -/
def tmdb_get_loop (status : Nat → Nat) : Nat → Nat → TmdbResult × List ℚ
  | 0, _ => (.rateLimited, [])
  | retry + 1, i =>
    let code := status i
    if code = 429 then
      let r := tmdb_get_loop status retry (i + 1)
      (r.1, (3 / 2 + (i : ℚ)) :: r.2)
    else if 400 ≤ code then (.httpError code, [])
    else (.json i, [])

/-- `tmdb_get` with its default retry budget of 3 attempts. -/
def tmdb_get (status : Nat → Nat) : TmdbResult × List ℚ :=
  tmdb_get_loop status 3 0

/-! ## Persisted record and state machine -/

/-- The persisted matching state of one import row: `match_status`,
`tmdb_id` and `match_note`. -/
structure ImportRec where
  status : MatchStatus
  tmdbId : Option Nat
  note : List Char
deriving DecidableEq, Repr

/-- The spec's claimed invariant: the external id is set exactly on
`MATCHED`, `AMBIGUOUS` and `APPLIED` records. -/
def specInvariant (r : ImportRec) : Prop :=
  r.tmdbId ≠ none ↔
    (r.status = .MATCHED ∨ r.status = .AMBIGUOUS ∨ r.status = .APPLIED)

instance (r : ImportRec) : Decidable (specInvariant r) := by
  unfold specInvariant; infer_instance

/-- The invariant the scripts actually maintain: `MATCHED` and `APPLIED`
records always carry an external id. -/
def idSetInv (r : ImportRec) : Prop :=
  (r.status = .MATCHED ∨ r.status = .APPLIED) → r.tmdbId ≠ none

instance (r : ImportRec) : Decidable (idSetInv r) := by
  unfold idSetInv; infer_instance

/-- The `applied` idempotency marker test of the appliers
(`match_note NOT LIKE '%applied%'`). -/
def hasAppliedMarker (note : List Char) : Bool :=
  containsSub note "applied".data

/-- One database transition of a record, one constructor per `UPDATE`
statement of the scripts, guarded by the `WHERE` filter of the batch
that performs it. -/
inductive Step : ImportRec → ImportRec → Prop
  /-- `tmdb_match_seen_sc` / `tmdb_match_watchlist_sc` / `tmdb_match_nas`
  on a `PENDING` record, zero search results. -/
  | matchNotFound (r : ImportRec) (n : List Char)
      (h : r.status = .PENDING) :
      Step r ⟨.NOT_FOUND, r.tmdbId, n⟩
  /-- A `PENDING`-batch matcher writing `MATCHED` always writes the
  chosen `tmdb_id` in the same statement. -/
  | matchMatched (r : ImportRec) (id : Nat) (n : List Char)
      (h : r.status = .PENDING) :
      Step r ⟨.MATCHED, some id, n⟩
  /-- `tmdb_match_seen_sc` / `tmdb_match_watchlist_sc` write the ranked
  first candidate's id with `AMBIGUOUS`. -/
  | matchAmbiguous (r : ImportRec) (id : Nat) (n : List Char)
      (h : r.status = .PENDING) :
      Step r ⟨.AMBIGUOUS, some id, n⟩
  /-- `tmdb_match_nas` writes `AMBIGUOUS` without touching `tmdb_id`. -/
  | nasAmbiguous (r : ImportRec) (n : List Char)
      (h : r.status = .PENDING) :
      Step r ⟨.AMBIGUOUS, r.tmdbId, n⟩
  /-- Exception handler of the `PENDING`-batch matchers: `tmdb_id` is
  not touched. -/
  | matchError (r : ImportRec) (n : List Char)
      (h : r.status = .PENDING) :
      Step r ⟨.ERROR, r.tmdbId, n⟩
  /-- `tmdb_match_br` re-matches `NOT_FOUND`/`ERROR` rows whose
  `tmdb_id` is null or zero; zero results. -/
  | brNotFound (r : ImportRec) (n : List Char)
      (hs : r.status = .NOT_FOUND ∨ r.status = .ERROR)
      (hid : r.tmdbId = none ∨ r.tmdbId = some 0) :
      Step r ⟨.NOT_FOUND, r.tmdbId, n⟩
  /-- `tmdb_match_br` writing `MATCHED` with the chosen id. -/
  | brMatched (r : ImportRec) (id : Nat) (n : List Char)
      (hs : r.status = .NOT_FOUND ∨ r.status = .ERROR)
      (hid : r.tmdbId = none ∨ r.tmdbId = some 0) :
      Step r ⟨.MATCHED, some id, n⟩
  /-- `tmdb_match_br` writing `AMBIGUOUS` with the first candidate's id. -/
  | brAmbiguous (r : ImportRec) (id : Nat) (n : List Char)
      (hs : r.status = .NOT_FOUND ∨ r.status = .ERROR)
      (hid : r.tmdbId = none ∨ r.tmdbId = some 0) :
      Step r ⟨.AMBIGUOUS, some id, n⟩
  /-- Exception handler of `tmdb_match_br`. -/
  | brError (r : ImportRec) (n : List Char)
      (hs : r.status = .NOT_FOUND ∨ r.status = .ERROR)
      (hid : r.tmdbId = none ∨ r.tmdbId = some 0) :
      Step r ⟨.ERROR, r.tmdbId, n⟩
  /-- `tmdb_apply_br` success on an eligible `MATCHED` row: status
  becomes `APPLIED`, the marker is appended, `tmdb_id` untouched. -/
  | applyBrOk (r : ImportRec) (t : Nat)
      (hs : r.status = .MATCHED) (hid : r.tmdbId = some t)
      (hm : hasAppliedMarker r.note = false) :
      Step r ⟨.APPLIED, r.tmdbId, r.note ++ " | applied".data⟩
  /-- `tmdb_apply_seen_sc` success: only the marker is appended, the
  status stays `MATCHED`. -/
  | applySeenOk (r : ImportRec) (t : Nat)
      (hs : r.status = .MATCHED) (hid : r.tmdbId = some t)
      (hm : hasAppliedMarker r.note = false) :
      Step r ⟨.MATCHED, r.tmdbId, r.note ++ " | applied".data⟩
  /-- Exception handler of the appliers: the record moves to `ERROR`
  with `tmdb_id` untouched. -/
  | applyError (r : ImportRec) (t : Nat) (n : List Char)
      (hs : r.status = .MATCHED) (hid : r.tmdbId = some t)
      (hm : hasAppliedMarker r.note = false) :
      Step r ⟨.ERROR, r.tmdbId, n⟩

/-! ## Applier (`tmdb_apply_br.py`, `tmdb_apply_seen_sc.py`) -/

/-- The fields of the TMDb details payload that the appliers copy into
the `film` table; `extra` stands for the remaining verbatim-copied
fields (imdb id, language, poster and backdrop paths, popularity, vote
statistics) that `tmdb_apply_br.py` also stores. -/
structure TmdbDetails where
  id : Nat
  title : List Char
  original_title : List Char
  release_date : List Char
  runtime : Option Nat
  overview : List Char
  extra : List Char
  genres : List (Nat × List Char)
deriving DecidableEq, Repr

/-- Decimal parse used for `int(release_date[:4])`. -/
def charsToNat (l : List Char) : Nat :=
  l.foldl (fun a c => a * 10 + (c.toNat - 48)) 0

/-- One row of the `film` table. -/
structure FilmRow where
  film_id : Nat
  tmdb_id : Nat
  title : List Char
  original_title : List Char
  release_date : List Char
  year : Option Nat
  runtime_min : Option Nat
  overview : List Char
  extra : Option (List Char)
deriving DecidableEq, Repr

/-- A fresh serial `film_id`. -/
def freshFilmId (db : List FilmRow) : Nat :=
  (db.map (fun r => r.film_id)).foldr max 0 + 1

/-- The `year` column computed by both appliers:
`int(release_date[:4]) if release_date else None`. -/
def yearOfDetails (d : TmdbDetails) : Option Nat :=
  if d.release_date = [] then none else some (charsToNat (d.release_date.take 4))

/-- `upsert_film` of `tmdb_apply_br.py`:
`INSERT ... ON CONFLICT (tmdb_id) DO UPDATE SET <all fields>`, returning
the row's `film_id`. -/
def upsert_film (db : List FilmRow) (d : TmdbDetails) : List FilmRow × Nat :=
  match db.find? (fun r => r.tmdb_id == d.id) with
  | some row =>
    (db.map (fun r =>
        if r.tmdb_id == d.id then
          { r with
            title := d.title, original_title := d.original_title,
            release_date := d.release_date, year := yearOfDetails d,
            runtime_min := d.runtime, overview := d.overview,
            extra := some d.extra }
        else r),
     row.film_id)
  | none =>
    let fid := freshFilmId db
    (db ++ [⟨fid, d.id, d.title, d.original_title, d.release_date,
            yearOfDetails d, d.runtime, d.overview, some d.extra⟩], fid)

/-- The film upsert of `tmdb_apply_seen_sc.py`: same key, but it only
sets its seven columns — `extra` is left `NULL` on insert and untouched
on update. -/
def upsert_film_seen (db : List FilmRow) (d : TmdbDetails) : List FilmRow × Nat :=
  match db.find? (fun r => r.tmdb_id == d.id) with
  | some row =>
    (db.map (fun r =>
        if r.tmdb_id == d.id then
          { r with
            title := d.title, original_title := d.original_title,
            release_date := d.release_date, year := yearOfDetails d,
            runtime_min := d.runtime, overview := d.overview }
        else r),
     row.film_id)
  | none =>
    let fid := freshFilmId db
    (db ++ [⟨fid, d.id, d.title, d.original_title, d.release_date,
            yearOfDetails d, d.runtime, d.overview, none⟩], fid)

/-- `INSERT ... ON CONFLICT DO NOTHING` into `film_source`. -/
def insert_film_source (links : List (Nat × Nat)) (fid sid : Nat) :
    List (Nat × Nat) :=
  if links.contains (fid, sid) then links else links ++ [(fid, sid)]

/-- `choose_primary_format` of `tmdb_apply_br.py`: priority
`4K > BR > DVD`, mapped onto the Postgres enum. -/
def choose_primary_format (formats : List (List Char)) : Option (List Char) :=
  if formats = [] then none
  else
    let s := formats.map upperStr
    if s.contains "4K".data then some "UHD".data
    else if s.contains "BR".data then some "BLURAY".data
    else if s.contains "DVD".data then some "DVD".data
    else none

/-- Staging columns of one `import_br` row consumed by the apply step. -/
structure BrRowData where
  formats : List (List Char)
  copies : Option Nat
  ean_isbn13 : Option (List Char)
  number_of_discs : Option Nat
  notes : Option (List Char)
deriving DecidableEq, Repr

/-- One row of the `physical_copy` table (keyed by `film_id`). -/
structure CopyRow where
  film_id : Nat
  format : Option (List Char)
  formats : List (List Char)
  copies : Nat
  ean_isbn13 : Option (List Char)
  number_of_discs : Option Nat
  notes : Option (List Char)
deriving DecidableEq, Repr

/-- The `physical_copy` upsert of `tmdb_apply_br.py` (`COALESCE(copies,1)`). -/
def upsert_copy (db : List CopyRow) (fid : Nat) (row : BrRowData) : List CopyRow :=
  let newRow : CopyRow :=
    ⟨fid, choose_primary_format row.formats, row.formats,
     row.copies.getD 1, row.ean_isbn13, row.number_of_discs, row.notes⟩
  if db.any (fun c => c.film_id == fid) then
    db.map (fun c => if c.film_id == fid then newRow else c)
  else db ++ [newRow]

/-- `upsert_genres` of `tmdb_apply_br.py`: genre rows keyed by the TMDb
genre id, plus `film_genre` links inserted with `DO NOTHING`. -/
def upsert_genres (genres : List (Nat × List Char))
    (g : List (Nat × List Char)) (fg : List (Nat × Nat)) (fid : Nat) :
    List (Nat × List Char) × List (Nat × Nat) :=
  genres.foldl
    (fun st pair =>
      let g' :=
        if st.1.any (fun e => e.1 == pair.1) then
          st.1.map (fun e => if e.1 == pair.1 then pair else e)
        else st.1 ++ [pair]
      let fg' :=
        if st.2.contains (fid, pair.1) then st.2 else st.2 ++ [(fid, pair.1)]
      (g', fg'))
    (g, fg)

/-- The target store touched by `tmdb_apply_br.py`. -/
structure BrDB where
  films : List FilmRow
  film_sources : List (Nat × Nat)
  genres : List (Nat × List Char)
  film_genres : List (Nat × Nat)
  physical_copies : List CopyRow
deriving DecidableEq, Repr

/-- Eligibility filter of the appliers' `SELECT`:
`match_status='MATCHED' AND tmdb_id IS NOT NULL AND match_note NOT LIKE
'%applied%'`. -/
def applyEligible (r : ImportRec) : Bool :=
  r.status == .MATCHED && r.tmdbId.isSome && !hasAppliedMarker r.note

/-- Per-record apply step of `tmdb_apply_br.py`: an ineligible record is
filtered out and nothing is written; otherwise the film, its source
link, genres and the physical copy are upserted, and the record moves to
`APPLIED` with the marker appended. -/
def apply_br (detailsOf : Nat → TmdbDetails) (src_id : Nat) (row : BrRowData)
    (db : BrDB) (r : ImportRec) : BrDB × ImportRec :=
  if applyEligible r then
    match r.tmdbId with
    | some tid =>
      let d := detailsOf tid
      let fu := upsert_film db.films d
      let links := insert_film_source db.film_sources fu.2 src_id
      let gg := upsert_genres d.genres db.genres db.film_genres fu.2
      let copies := upsert_copy db.physical_copies fu.2 row
      (⟨fu.1, links, gg.1, gg.2, copies⟩,
       ⟨.APPLIED, r.tmdbId, r.note ++ " | applied".data⟩)
    | none => (db, r)
  else (db, r)

/-- One row of the `user_film` table (keyed by user and film). -/
structure UserFilmRow where
  user_id : Nat
  film_id : Nat
  status : List Char
  rating_10 : Option Nat
  first_seen_at : Option (List Char)
  last_seen_at : Option (List Char)
  rewatch_count : Nat
deriving DecidableEq, Repr

/-- One row of the `watch_event` table. -/
structure WatchEventRow where
  user_id : Nat
  film_id : Nat
  watched_at : List Char
  rating_10 : Option Nat
  context : List Char
deriving DecidableEq, Repr

/-- The target store touched by `tmdb_apply_seen_sc.py`. -/
structure SeenDB where
  films : List FilmRow
  user_films : List UserFilmRow
  watch_events : List WatchEventRow
deriving DecidableEq, Repr

/-- `normalize_date` of `tmdb_apply_seen_sc.py`. -/
def normalize_date (d : Option (List Char)) : Option (List Char) :=
  match d with
  | none => none
  | some s => if s = "1970-01-01".data then none else some s

/-- The `user_film` upsert of `tmdb_apply_seen_sc.py`: the update keeps
`first_seen_at` and `rewatch_count`. -/
def upsert_user_film (db : List UserFilmRow) (uid fid : Nat)
    (rating : Option Nat) (watched : Option (List Char)) : List UserFilmRow :=
  if db.any (fun u => u.user_id == uid && u.film_id == fid) then
    db.map (fun u =>
      if u.user_id == uid && u.film_id == fid then
        { u with status := "SEEN".data, rating_10 := rating, last_seen_at := watched }
      else u)
  else db ++ [⟨uid, fid, "SEEN".data, rating, watched, watched, 0⟩]

/-- Per-record apply step of `tmdb_apply_seen_sc.py`: film and
`user_film` upserts, a `watch_event` insert when a watch date exists,
then only the note marker is appended — `match_status` is not updated. -/
def apply_seen (detailsOf : Nat → TmdbDetails) (uid : Nat)
    (watched_date : Option (List Char)) (rating : Option Nat)
    (db : SeenDB) (r : ImportRec) : SeenDB × ImportRec :=
  if applyEligible r then
    match r.tmdbId with
    | some tid =>
      let d := detailsOf tid
      let fu := upsert_film_seen db.films d
      let watched := normalize_date watched_date
      let uf := upsert_user_film db.user_films uid fu.2 rating watched
      let we :=
        match watched with
        | some w => db.watch_events ++ [⟨uid, fu.2, w, rating, "senscritique_import".data⟩]
        | none => db.watch_events
      (⟨fu.1, uf, we⟩, ⟨r.status, r.tmdbId, r.note ++ " | applied".data⟩)
    | none => (db, r)
  else (db, r)

/-! ## Worker-boundary error handling (`main` loops) -/

/-- The exception handler of `tmdb_match_br.py`'s loop: roll back the
record's pending writes and store `ERROR` with the exception text
truncated to 900 characters behind a `match: ` tag. -/
def error_update (r : ImportRec) (e : List Char) : ImportRec :=
  ⟨.ERROR, r.tmdbId, "match: ".data ++ e.take 900⟩

/-- Processing of one record at the worker boundary: either the
per-record computation commits its result, or its exception is converted
into the `ERROR` transition applied to the unmodified input record. -/
def process_record (step : ImportRec → Except (List Char) ImportRec)
    (r : ImportRec) : ImportRec :=
  match step r with
  | .ok r' => r'
  | .error e => error_update r e

/-- A batch run: each record is processed independently and the loop
always continues with the next record. -/
def run_batch (step : ImportRec → Except (List Char) ImportRec)
    (rs : List ImportRec) : List ImportRec :=
  rs.map (process_record step)

/-! ## Auxiliary definitions used by the statements -/

/-- Maximum of a list of scores. -/
def listMax (l : List Nat) : Nat := l.foldr max 0

/-- The director-loop hit test on a scored candidate. -/
def scanHit (dirOf : Nat → List (List Char)) (hint : List Char)
    (p : Nat × Candidate) : Bool :=
  dirOverlap hint (dirOf p.2.id)

/-- Number of `film` rows carrying a given `tmdb_id`. -/
def countFilm (db : List FilmRow) (t : Nat) : Nat :=
  (db.filter (fun r => r.tmdb_id == t)).length

/-- Number of `film_source` rows equal to a given (film, source) pair. -/
def countLink (links : List (Nat × Nat)) (pr : Nat × Nat) : Nat :=
  links.count pr

/-- The `film_id` of the row holding a given `tmdb_id`, if any. -/
def filmIdOf (db : List FilmRow) (t : Nat) : Option Nat :=
  (db.find? (fun r => r.tmdb_id == t)).map (fun r => r.film_id)

/-! ## Canonical-form predicates for normalizer outputs -/

/-- No two adjacent whitespace characters. -/
def noAdj : List Char → Bool
  | c :: d :: rest => (!(pyIsSpace c && pyIsSpace d)) && noAdj (d :: rest)
  | _ => true

/-- The first character, if any, is not whitespace. -/
def headOk : List Char → Bool
  | [] => true
  | c :: _ => !pyIsSpace c

/-- The last character, if any, is not whitespace. -/
def lastOk : List Char → Bool
  | [] => true
  | [c] => !pyIsSpace c
  | _ :: rest => lastOk rest

/-! ## Character-level lemmas -/

set_option maxRecDepth 4096 in
theorem toNat_ofNat_small : ∀ n : Fin 256, (Char.ofNat n.val).toNat = n.val := by decide

theorem char_eq_of_toNat {a b : Char} (h : a.toNat = b.toNat) : a = b :=
  Char.ext (UInt32.toNat.inj h)

theorem lower_fix_good {c : Char} (h : isGoodChar c = true) : lowerChar c = c := by
  unfold isGoodChar isAlnum at h
  simp only [Bool.or_eq_true, Bool.and_eq_true, decide_eq_true_eq] at h
  unfold lowerChar
  rw [if_neg (by omega : ¬(65 ≤ c.toNat ∧ c.toNat ≤ 90))]

theorem lowerChar_idem (c : Char) : lowerChar (lowerChar c) = lowerChar c := by
  unfold lowerChar
  by_cases h : 65 ≤ c.toNat ∧ c.toNat ≤ 90
  · rw [if_pos h]
    have ht : (Char.ofNat (c.toNat + 32)).toNat = c.toNat + 32 :=
      toNat_ofNat_small ⟨c.toNat + 32, by omega⟩
    rw [if_neg]
    omega
  · rw [if_neg h, if_neg h]

theorem lower_space_inv (c : Char) : pyIsSpace (lowerChar c) = pyIsSpace c := by
  unfold lowerChar
  by_cases h : 65 ≤ c.toNat ∧ c.toNat ≤ 90
  · rw [if_pos h]
    have ht : (Char.ofNat (c.toNat + 32)).toNat = c.toNat + 32 :=
      toNat_ofNat_small ⟨c.toNat + 32, by omega⟩
    have hl : pyIsSpace (Char.ofNat (c.toNat + 32)) = false := by
      unfold pyIsSpace
      rw [ht]
      simp only [Bool.or_eq_false_iff, decide_eq_false_iff_not]
      omega
    have hr : pyIsSpace c = false := by
      unfold pyIsSpace
      simp only [Bool.or_eq_false_iff, decide_eq_false_iff_not]
      omega
    rw [hl, hr]
  · rw [if_neg h]

theorem good_space_eq {c : Char} (hg : isGoodChar c = true)
    (hs : pyIsSpace c = true) : c = ' ' := by
  apply char_eq_of_toNat
  unfold isGoodChar isAlnum at hg
  unfold pyIsSpace at hs
  simp only [Bool.or_eq_true, Bool.and_eq_true, decide_eq_true_eq] at hg hs
  have hsp : (' ' : Char).toNat = 32 := by decide
  omega

theorem good_not_bracket {c : Char} (hg : isGoodChar c = true) : c ≠ '[' := by
  intro h
  subst h
  simp [isGoodChar, isAlnum] at hg

/-! ## Fixed-point lemmas for the normalizer stages -/

theorem map_id_of_mem {f : Char → Char} :
    ∀ {l : List Char}, (∀ c ∈ l, f c = c) → l.map f = l
  | [], _ => rfl
  | c :: rest, h => by
    simp only [List.map_cons, List.cons.injEq]
    exact ⟨h c (List.mem_cons_self c rest),
           map_id_of_mem (fun d hd => h d (List.mem_cons_of_mem c hd))⟩

theorem sbAux_no_bracket :
    ∀ {l : List Char}, (∀ c ∈ l, c ≠ '[') → sbAux l none = l
  | [], _ => rfl
  | c :: rest, h => by
    unfold sbAux
    rw [if_neg (h c (List.mem_cons_self c rest))]
    exact congrArg (c :: ·)
      (sbAux_no_bracket (fun d hd => h d (List.mem_cons_of_mem c hd)))

theorem subBadAux_fix :
    ∀ (b : Bool) {l : List Char}, l.all isGoodChar = true → subBadAux b l = l
  | _, [], _ => rfl
  | b, c :: rest, h => by
    simp only [List.all_cons, Bool.and_eq_true] at h
    unfold subBadAux
    rw [if_pos h.1]
    exact congrArg (c :: ·) (subBadAux_fix false h.2)

theorem noAdj_tail {c : Char} {l : List Char} (h : noAdj (c :: l) = true) :
    noAdj l = true := by
  cases l with
  | nil => rfl
  | cons d rest =>
    unfold noAdj at h
    simp only [Bool.and_eq_true] at h
    exact h.2

theorem noAdj_cons_of {c : Char} {l : List Char} (h1 : noAdj l = true)
    (h2 : pyIsSpace c = false ∨ headOk l = true) : noAdj (c :: l) = true := by
  cases l with
  | nil => rfl
  | cons d rest =>
    unfold noAdj
    simp only [Bool.and_eq_true]
    refine ⟨?_, h1⟩
    rcases h2 with h2 | h2
    · simp [h2]
    · unfold headOk at h2
      simp only [Bool.not_eq_true'] at h2
      simp [h2]

theorem collapseAux_true_eq {l : List Char} (h : headOk l = true) :
    collapseAux true l = collapseAux false l := by
  cases l with
  | nil => rfl
  | cons c rest =>
    unfold headOk at h
    simp only [Bool.not_eq_true'] at h
    simp [collapseAux, h]

theorem collapseAux_fix :
    ∀ {l : List Char}, noAdj l = true →
      (∀ c ∈ l, pyIsSpace c = true → c = ' ') → collapseAux false l = l
  | [], _, _ => rfl
  | c :: rest, hadj, hsp => by
    have htail : collapseAux false rest = rest :=
      collapseAux_fix (noAdj_tail hadj)
        (fun d hd => hsp d (List.mem_cons_of_mem c hd))
    cases h : pyIsSpace c with
    | true =>
      have hc : c = ' ' := hsp c (List.mem_cons_self c rest) h
      have hho : headOk rest = true := by
        cases rest with
        | nil => rfl
        | cons d rs =>
          unfold noAdj at hadj
          simp only [Bool.and_eq_true] at hadj
          have h1 := hadj.1
          rw [h] at h1
          unfold headOk
          simpa using h1
      simp [collapseAux, h, collapseAux_true_eq hho, htail, hc]
    | false => simp [collapseAux, h, htail]

theorem dropWhile_fix {l : List Char} (h : headOk l = true) :
    l.dropWhile pyIsSpace = l := by
  cases l with
  | nil => rfl
  | cons c rest =>
    unfold headOk at h
    simp only [Bool.not_eq_true'] at h
    simp [List.dropWhile_cons, h]

theorem lastOk_cons_ne {c : Char} {l : List Char} (h : l ≠ []) :
    lastOk (c :: l) = lastOk l := by
  cases l with
  | nil => exact absurd rfl h
  | cons d rest => rfl

theorem stripTrailing_fix :
    ∀ {l : List Char}, lastOk l = true → stripTrailing l = l
  | [], _ => rfl
  | [c], h => by
    unfold lastOk at h
    simp only [Bool.not_eq_true'] at h
    simp [stripTrailing, h]
  | c :: d :: rest, h => by
    rw [lastOk_cons_ne (by simp)] at h
    have ih := stripTrailing_fix h
    unfold stripTrailing
    rw [ih]

/-! ## Canonical-form construction lemmas -/

theorem subBadAux_all_good :
    ∀ (b : Bool) (l : List Char), (subBadAux b l).all isGoodChar = true
  | _, [] => rfl
  | b, c :: rest => by
    cases h : isGoodChar c with
    | true => simpa [subBadAux, h] using subBadAux_all_good false rest
    | false =>
      cases b with
      | true => simpa [subBadAux, h] using subBadAux_all_good true rest
      | false =>
        simp only [subBadAux, h, List.all_cons, Bool.and_eq_true]
        simp only [Bool.false_eq_true, if_false, List.all_cons, Bool.and_eq_true]
        exact ⟨by decide, subBadAux_all_good true rest⟩

theorem collapseAux_mem :
    ∀ (b : Bool) (l : List Char) (c : Char), c ∈ collapseAux b l → c = ' ' ∨ c ∈ l
  | _, [], _, h => by simp [collapseAux] at h
  | b, d :: rest, c, h => by
    cases hs : pyIsSpace d with
    | true =>
      cases b with
      | true =>
        simp only [collapseAux, hs, if_true] at h
        rcases collapseAux_mem true rest c h with h' | h'
        · exact Or.inl h'
        · exact Or.inr (List.mem_cons_of_mem d h')
      | false =>
        simp only [collapseAux, hs, if_true, Bool.false_eq_true, if_false,
          List.mem_cons] at h
        rcases h with h' | h'
        · exact Or.inl h'
        · rcases collapseAux_mem true rest c h' with h'' | h''
          · exact Or.inl h''
          · exact Or.inr (List.mem_cons_of_mem d h'')
    | false =>
      simp only [collapseAux, hs, Bool.false_eq_true, if_false, List.mem_cons] at h
      rcases h with h' | h'
      · exact Or.inr (h' ▸ List.mem_cons_self d rest)
      · rcases collapseAux_mem false rest c h' with h'' | h''
        · exact Or.inl h''
        · exact Or.inr (List.mem_cons_of_mem d h'')

theorem collapseAux_space_char :
    ∀ (b : Bool) (l : List Char) (c : Char),
      c ∈ collapseAux b l → pyIsSpace c = true → c = ' '
  | _, [], _, h, _ => by simp [collapseAux] at h
  | b, d :: rest, c, h, hsp => by
    cases hs : pyIsSpace d with
    | true =>
      cases b with
      | true =>
        simp only [collapseAux, hs, if_true] at h
        exact collapseAux_space_char true rest c h hsp
      | false =>
        simp only [collapseAux, hs, if_true, Bool.false_eq_true, if_false,
          List.mem_cons] at h
        rcases h with h' | h'
        · exact h'
        · exact collapseAux_space_char true rest c h' hsp
    | false =>
      simp only [collapseAux, hs, Bool.false_eq_true, if_false, List.mem_cons] at h
      rcases h with h' | h'
      · subst h'
        rw [hs] at hsp
        exact absurd hsp (by simp)
      · exact collapseAux_space_char false rest c h' hsp

theorem headOk_collapseAux_true :
    ∀ (l : List Char), headOk (collapseAux true l) = true
  | [] => rfl
  | c :: rest => by
    cases hs : pyIsSpace c with
    | true => simpa [collapseAux, hs] using headOk_collapseAux_true rest
    | false => simp [collapseAux, hs, headOk]

theorem noAdj_collapseAux :
    ∀ (b : Bool) (l : List Char), noAdj (collapseAux b l) = true
  | _, [] => rfl
  | b, c :: rest => by
    cases hs : pyIsSpace c with
    | true =>
      cases b with
      | true => simpa [collapseAux, hs] using noAdj_collapseAux true rest
      | false =>
        simp only [collapseAux, hs, if_true, Bool.false_eq_true, if_false]
        exact noAdj_cons_of (noAdj_collapseAux true rest)
          (Or.inr (headOk_collapseAux_true rest))
    | false =>
      simp only [collapseAux, hs, Bool.false_eq_true, if_false]
      exact noAdj_cons_of (noAdj_collapseAux false rest) (Or.inl hs)

theorem stripTrailing_sublist : ∀ (l : List Char), List.Sublist (stripTrailing l) l
  | [] => List.Sublist.refl []
  | c :: rest => by
    cases h : stripTrailing rest with
    | nil =>
      unfold stripTrailing
      rw [h]
      by_cases hs : pyIsSpace c = true
      · simp [hs]
      · simp only [Bool.not_eq_true] at hs
        simp [hs]
    | cons d rs =>
      unfold stripTrailing
      rw [h]
      exact List.Sublist.cons₂ c (h ▸ stripTrailing_sublist rest)

theorem pyStrip_sublist (l : List Char) : List.Sublist (pyStrip l) l :=
  (stripTrailing_sublist _).trans (List.dropWhile_sublist _)

theorem headOk_dropWhile (l : List Char) :
    headOk (l.dropWhile pyIsSpace) = true := by
  induction l with
  | nil => rfl
  | cons c rest ih =>
    by_cases h : pyIsSpace c = true
    · simpa [List.dropWhile_cons, h] using ih
    · simp only [Bool.not_eq_true] at h
      simp [List.dropWhile_cons, h, headOk]

theorem stripTrailing_head :
    ∀ (l : List Char), stripTrailing l = [] ∨ (stripTrailing l).head? = l.head?
  | [] => Or.inl rfl
  | c :: rest => by
    cases h : stripTrailing rest with
    | nil =>
      unfold stripTrailing
      rw [h]
      by_cases hs : pyIsSpace c = true
      · simp [hs]
      · simp only [Bool.not_eq_true] at hs
        simp [hs]
    | cons d rs =>
      unfold stripTrailing
      rw [h]
      simp

theorem headOk_stripTrailing {l : List Char} (h : headOk l = true) :
    headOk (stripTrailing l) = true := by
  rcases stripTrailing_head l with h' | h'
  · rw [h']
    rfl
  · cases l with
    | nil => cases hst : stripTrailing ([] : List Char) with
      | nil => rfl
      | cons d rs => simp [stripTrailing] at hst
    | cons c rest =>
      cases hst : stripTrailing (c :: rest) with
      | nil => rfl
      | cons d rs =>
        rw [hst] at h'
        simp only [List.head?_cons, Option.some.injEq] at h'
        unfold headOk at h ⊢
        rw [h']
        exact h

theorem headOk_pyStrip (l : List Char) : headOk (pyStrip l) = true :=
  headOk_stripTrailing (headOk_dropWhile l)

theorem lastOk_stripTrailing : ∀ (l : List Char), lastOk (stripTrailing l) = true
  | [] => rfl
  | c :: rest => by
    cases h : stripTrailing rest with
    | nil =>
      unfold stripTrailing
      rw [h]
      by_cases hs : pyIsSpace c = true
      · simp only [hs, if_true]
        rfl
      · simp only [Bool.not_eq_true] at hs
        simp [hs, lastOk]
    | cons d rs =>
      unfold stripTrailing
      rw [h]
      rw [lastOk_cons_ne (by simp)]
      rw [← h]
      exact lastOk_stripTrailing rest

theorem lastOk_pyStrip (l : List Char) : lastOk (pyStrip l) = true :=
  lastOk_stripTrailing _

theorem noAdj_dropWhile {l : List Char} (h : noAdj l = true) :
    noAdj (l.dropWhile pyIsSpace) = true := by
  induction l with
  | nil => exact h
  | cons c rest ih =>
    by_cases hs : pyIsSpace c = true
    · simp only [List.dropWhile_cons, hs, if_true]
      exact ih (noAdj_tail h)
    · simp only [Bool.not_eq_true] at hs
      simpa [List.dropWhile_cons, hs] using h

theorem noAdj_stripTrailing : ∀ {l : List Char}, noAdj l = true →
    noAdj (stripTrailing l) = true
  | [], _ => rfl
  | c :: rest, h => by
    cases hst : stripTrailing rest with
    | nil =>
      unfold stripTrailing
      rw [hst]
      by_cases hs : pyIsSpace c = true
      · simp only [hs, if_true]
        rfl
      · simp only [Bool.not_eq_true] at hs
        simp [hs, noAdj]
    | cons d rs =>
      unfold stripTrailing
      rw [hst]
      have hna : noAdj (d :: rs) = true := hst ▸ noAdj_stripTrailing (noAdj_tail h)
      apply noAdj_cons_of hna
      cases hc : pyIsSpace c with
      | false => exact Or.inl rfl
      | true =>
        right
        rcases stripTrailing_head rest with h' | h'
        · rw [hst] at h'
          cases h'
        · rw [hst] at h'
          cases rest with
          | nil => simp [stripTrailing] at hst
          | cons e es =>
            simp only [List.head?_cons, Option.some.injEq] at h'
            unfold noAdj at h
            simp only [Bool.and_eq_true] at h
            have h1 := h.1
            rw [hc] at h1
            simp only [Bool.true_and, Bool.not_eq_true'] at h1
            simp only [headOk]
            rw [h', h1]
            rfl

theorem allGood_sublist {l l' : List Char} (hs : List.Sublist l' l)
    (h : l.all isGoodChar = true) : l'.all isGoodChar = true := by
  simp only [List.all_eq_true] at h ⊢
  exact fun c hc => h c (hs.mem hc)

theorem allGood_collapseAux {b : Bool} {l : List Char}
    (h : l.all isGoodChar = true) : (collapseAux b l).all isGoodChar = true := by
  simp only [List.all_eq_true] at h ⊢
  intro c hc
  rcases collapseAux_mem b l c hc with h' | h'
  · subst h'
    decide
  · exact h c h'

theorem headOk_lower (l : List Char) : headOk (lowerStr l) = headOk l := by
  cases l with
  | nil => rfl
  | cons c rest =>
    unfold lowerStr headOk
    simp [lower_space_inv]

theorem lastOk_lower : ∀ (l : List Char), lastOk (lowerStr l) = lastOk l
  | [] => rfl
  | [c] => by
    unfold lowerStr lastOk
    simp [lower_space_inv]
  | c :: d :: rest => by
    have ih := lastOk_lower (d :: rest)
    unfold lowerStr at ih ⊢
    simp only [List.map_cons] at ih ⊢
    rw [lastOk_cons_ne (show (lowerChar d :: List.map lowerChar rest) ≠ [] by simp),
        lastOk_cons_ne (show (d :: rest) ≠ [] by simp)]
    exact ih

theorem lastOk_cons_of_ne_nil {c : Char} {l : List Char} (hne : l ≠ [])
    (h : lastOk l = true) : lastOk (c :: l) = true := by
  rw [lastOk_cons_ne hne]
  exact h

theorem bool_ne_true {b : Bool} (h : b = false) : ¬(b = true) := by
  intro h'
  rw [h'] at h
  exact Bool.noConfusion h

theorem collapseAux_cons_true (c : Char) (l : List Char) :
    collapseAux true (c :: l) =
      if pyIsSpace c then collapseAux true l else c :: collapseAux false l := rfl

theorem collapseAux_cons_false (c : Char) (l : List Char) :
    collapseAux false (c :: l) =
      if pyIsSpace c then ' ' :: collapseAux true l else c :: collapseAux false l := rfl

theorem collapseAux_lastOk :
    ∀ (b : Bool) {l : List Char}, lastOk l = true →
      lastOk (collapseAux b l) = true ∧ (l ≠ [] → collapseAux b l ≠ [])
  | _, [], _ => ⟨rfl, fun h => absurd rfl h⟩
  | b, [c], h => by
    unfold lastOk at h
    simp only [Bool.not_eq_true'] at h
    cases b with
    | true =>
      rw [collapseAux_cons_true, if_neg (bool_ne_true h)]
      exact ⟨by simp [lastOk, h], by simp⟩
    | false =>
      rw [collapseAux_cons_false, if_neg (bool_ne_true h)]
      exact ⟨by simp [lastOk, h], by simp⟩
  | b, c :: d :: rest, h => by
    rw [lastOk_cons_ne (by simp)] at h
    cases hs : pyIsSpace c with
    | true =>
      cases b with
      | true =>
        have ih := collapseAux_lastOk true h
        rw [collapseAux_cons_true, if_pos hs]
        exact ⟨ih.1, fun _ => ih.2 (by simp)⟩
      | false =>
        have ih := collapseAux_lastOk true h
        have hne : collapseAux true (d :: rest) ≠ [] := ih.2 (by simp)
        rw [collapseAux_cons_false, if_pos hs]
        constructor
        · rw [lastOk_cons_ne hne]
          exact ih.1
        · intro _
          simp
    | false =>
      have ih := collapseAux_lastOk false h
      have hne : collapseAux false (d :: rest) ≠ [] := ih.2 (by simp)
      have hrw : ∀ b' : Bool, collapseAux b' (c :: d :: rest) =
          c :: collapseAux false (d :: rest) := by
        intro b'
        cases b' with
        | true => rw [collapseAux_cons_true, if_neg (bool_ne_true hs)]
        | false => rw [collapseAux_cons_false, if_neg (bool_ne_true hs)]
      rw [hrw b]
      constructor
      · rw [lastOk_cons_ne hne]
        exact ih.1
      · intro _
        simp

theorem headOk_collapseAux_false {l : List Char} (h : headOk l = true) :
    headOk (collapseAux false l) = true := by
  cases l with
  | nil => rfl
  | cons c rest =>
    unfold headOk at h
    simp only [Bool.not_eq_true'] at h
    simp [collapseAux, h, headOk]

/-! ## Idempotence of the two normalizers -/

theorem norm_idem (t : List Char) : norm (norm t) = norm t := by
  have hAllGood : (norm t).all isGoodChar = true := by
    unfold norm pyStrip
    apply allGood_sublist (stripTrailing_sublist _)
    apply allGood_sublist (List.dropWhile_sublist _)
    exact allGood_collapseAux (subBadAux_all_good false _)
  have hNoAdj : noAdj (norm t) = true := by
    unfold norm pyStrip
    exact noAdj_stripTrailing (noAdj_dropWhile (noAdj_collapseAux false _))
  have hHead : headOk (norm t) = true := headOk_pyStrip _
  have hLast : lastOk (norm t) = true := lastOk_pyStrip _
  have hmem : ∀ c ∈ norm t, isGoodChar c = true := by
    simpa only [List.all_eq_true] using hAllGood
  have h1 : lowerStr (norm t) = norm t :=
    map_id_of_mem (fun c hc => lower_fix_good (hmem c hc))
  have h2 : stripBrackets (norm t) = norm t :=
    sbAux_no_bracket (fun c hc => good_not_bracket (hmem c hc))
  have h3 : subBad (norm t) = norm t := subBadAux_fix false hAllGood
  have h4 : collapseWS (norm t) = norm t :=
    collapseAux_fix hNoAdj (fun c hc hsp => good_space_eq (hmem c hc) hsp)
  have h5 : pyStrip (norm t) = norm t := by
    unfold pyStrip
    rw [dropWhile_fix hHead, stripTrailing_fix hLast]
  calc norm (norm t)
      = pyStrip (collapseWS (subBad (stripBrackets (lowerStr (norm t))))) := rfl
    _ = norm t := by rw [h1, h2, h3, h4, h5]

theorem normBr_idem (t : List Char) : normBr (normBr t) = normBr t := by
  have hNoAdj : noAdj (normBr t) = true := noAdj_collapseAux false _
  have hSpace : ∀ c ∈ normBr t, pyIsSpace c = true → c = ' ' :=
    fun c hc => collapseAux_space_char false _ c hc
  have hHeadIn : headOk (lowerStr (pyStrip t)) = true := by
    rw [headOk_lower]
    exact headOk_pyStrip t
  have hHead : headOk (normBr t) = true := headOk_collapseAux_false hHeadIn
  have hLastIn : lastOk (lowerStr (pyStrip t)) = true := by
    rw [lastOk_lower]
    exact lastOk_pyStrip t
  have hLast : lastOk (normBr t) = true := (collapseAux_lastOk false hLastIn).1
  have h1 : pyStrip (normBr t) = normBr t := by
    unfold pyStrip
    rw [dropWhile_fix hHead, stripTrailing_fix hLast]
  have h2 : lowerStr (normBr t) = normBr t := by
    apply map_id_of_mem
    intro c hc
    rcases collapseAux_mem false _ c hc with h' | h'
    · subst h'
      decide
    · rcases List.mem_map.mp h' with ⟨d, _, hd⟩
      rw [← hd]
      exact lowerChar_idem d
  calc normBr (normBr t)
      = collapseWS (lowerStr (pyStrip (normBr t))) := rfl
    _ = normBr t := by
      rw [h1, h2]
      exact collapseAux_fix hNoAdj hSpace

/-! ## Substring containment lemmas -/

theorem containsSub_nil : ∀ (l : List Char), containsSub l [] = true
  | [] => rfl
  | _ :: _ => by simp [containsSub, startsWith]

theorem containsSub_append_right {s p : List Char} (h : containsSub s p = true) :
    ∀ (x : List Char), containsSub (x ++ s) p = true
  | [] => h
  | c :: x => by
    simp only [List.cons_append, containsSub, Bool.or_eq_true]
    exact Or.inr (containsSub_append_right h x)

theorem hasAppliedMarker_append (n : List Char) :
    hasAppliedMarker (n ++ " | applied".data) = true := by
  unfold hasAppliedMarker
  exact containsSub_append_right (by decide) n

theorem dirOverlap_nil (dirs : List (List Char)) :
    dirOverlap [] dirs = !dirs.isEmpty := by
  cases dirs with
  | nil => rfl
  | cons d ds => simp [dirOverlap, containsSub_nil]

/-! ## Director-scan characterization -/

theorem director_scan_eq (dirOf : Nat → List (List Char)) (hint : List Char) :
    ∀ l : List (Nat × Candidate),
      director_scan dirOf hint l =
        ((l.find? (scanHit dirOf hint)).map (fun p => p.2),
         (l.takeWhile (fun p => !scanHit dirOf hint p)).map (fun p => p.2.id) ++
           ((l.find? (scanHit dirOf hint)).map (fun p => p.2.id)).toList)
  | [] => rfl
  | (s, c) :: rest => by
    cases h : scanHit dirOf hint (s, c) with
    | true =>
      have h' : dirOverlap hint (dirOf c.id) = true := h
      simp [director_scan, h', List.find?_cons, h, List.takeWhile_cons]
    | false =>
      have h' : dirOverlap hint (dirOf c.id) = false := h
      have ih := director_scan_eq dirOf hint rest
      simp [director_scan, h', List.find?_cons, h, List.takeWhile_cons, ih]

theorem takeWhile_neg_all {α : Type} (p : α → Bool) :
    ∀ l : List α, (∀ x ∈ l, p x = false) →
      l.takeWhile (fun x => !p x) = l
  | [], _ => rfl
  | c :: rest, h => by
    rw [List.takeWhile_cons]
    rw [h c (List.mem_cons_self c rest)]
    simp only [Bool.not_false, if_true]
    exact congrArg (c :: ·)
      (takeWhile_neg_all p rest (fun x hx => h x (List.mem_cons_of_mem c hx)))

theorem director_scan_ids_len (dirOf : Nat → List (List Char)) (hint : List Char) :
    ∀ l : List (Nat × Candidate),
      (director_scan dirOf hint l).2.length ≤ l.length
  | [] => Nat.le_refl 0
  | (s, c) :: rest => by
    cases h : dirOverlap hint (dirOf c.id) with
    | true => simp [director_scan, h]
    | false =>
      simp only [director_scan, h, Bool.false_eq_true, if_false, List.length_cons]
      exact Nat.succ_le_succ (director_scan_ids_len dirOf hint rest)

theorem wl_scan_ids_len (dirOf : Nat → List (List Char)) (hint : List Char) :
    ∀ l : List Candidate, (wl_scan dirOf hint l).2.length ≤ l.length
  | [] => Nat.le_refl 0
  | c :: rest => by
    cases h : dirOverlap hint (dirOf c.id) with
    | true => simp [wl_scan, h]
    | false =>
      simp only [wl_scan, h, Bool.false_eq_true, if_false, List.length_cons]
      exact Nat.succ_le_succ (wl_scan_ids_len dirOf hint rest)

/-! ## Stable descending sort lemmas -/

theorem insDesc_perm {α : Type} (key : α → Nat) (a : α) :
    ∀ l : List α, List.Perm (insDesc key a l) (a :: l)
  | [] => List.Perm.refl _
  | b :: bs => by
    unfold insDesc
    by_cases h : key a < key b
    · rw [if_pos h]
      exact ((insDesc_perm key a bs).cons b).trans (List.Perm.swap a b bs)
    · rw [if_neg h]

theorem sortDesc_perm {α : Type} (key : α → Nat) :
    ∀ l : List α, List.Perm (sortDesc key l) l
  | [] => List.Perm.refl _
  | x :: xs =>
    (insDesc_perm key x (sortDesc key xs)).trans ((sortDesc_perm key xs).cons x)

theorem insDesc_pairwise {α : Type} {key : α → Nat} {a : α} :
    ∀ {l : List α}, List.Pairwise (fun x y => key y ≤ key x) l →
      List.Pairwise (fun x y => key y ≤ key x) (insDesc key a l)
  | [], _ => List.pairwise_singleton _ a
  | b :: bs, h => by
    rw [List.pairwise_cons] at h
    unfold insDesc
    by_cases hk : key a < key b
    · rw [if_pos hk]
      rw [List.pairwise_cons]
      constructor
      · intro x hx
        rcases List.mem_cons.mp ((insDesc_perm key a bs).mem_iff.mp hx) with hx' | hx'
        · exact hx' ▸ Nat.le_of_lt hk
        · exact h.1 x hx'
      · exact insDesc_pairwise h.2
    · rw [if_neg hk]
      rw [List.pairwise_cons]
      constructor
      · intro x hx
        rcases List.mem_cons.mp hx with hx' | hx'
        · exact hx' ▸ Nat.le_of_not_lt hk
        · exact Nat.le_trans (h.1 x hx') (Nat.le_of_not_lt hk)
      · exact List.pairwise_cons.mpr h

theorem sortDesc_pairwise {α : Type} (key : α → Nat) :
    ∀ l : List α, List.Pairwise (fun x y => key y ≤ key x) (sortDesc key l)
  | [] => List.Pairwise.nil
  | x :: xs => insDesc_pairwise (sortDesc_pairwise key xs)

/-! ## Maximum-score characterization of ties -/

theorem foldr_max_le {a : Nat} : ∀ {l : List Nat}, (∀ x ∈ l, x ≤ a) →
    listMax l ≤ a
  | [], _ => Nat.zero_le a
  | b :: bs, h => by
    unfold listMax List.foldr
    apply Nat.max_le.mpr
    exact ⟨h b (List.mem_cons_self b bs),
           foldr_max_le (fun x hx => h x (List.mem_cons_of_mem b hx))⟩

theorem le_foldr_max {a : Nat} : ∀ {l : List Nat}, a ∈ l → a ≤ listMax l
  | [], h => absurd h (List.not_mem_nil a)
  | b :: bs, h => by
    unfold listMax List.foldr
    rcases List.mem_cons.mp h with h' | h'
    · exact h' ▸ Nat.le_max_left _ _
    · exact Nat.le_trans (le_foldr_max h') (Nat.le_max_right _ _)

theorem foldr_max_eq {a : Nat} {l : List Nat} (hmem : a ∈ l)
    (hub : ∀ x ∈ l, x ≤ a) : listMax l = a :=
  Nat.le_antisymm (foldr_max_le hub) (le_foldr_max hmem)

/-- In a stable descending sort, the top two scores tie exactly when the
maximal score is attained at least twice. -/
theorem topTwoTied_iff_count {l : List (Nat × Candidate)} (hne : l ≠ []) :
    topTwoTied (sortDesc (fun p => p.1) l) = true ↔
      2 ≤ (l.map (fun p => p.1)).count (listMax (l.map (fun p => p.1))) := by
  have hperm := sortDesc_perm (fun p => p.1) l
  have hpw := sortDesc_pairwise (fun p => p.1) l
  have hpermmap : List.Perm ((sortDesc (fun p => p.1) l).map (fun p => p.1))
      (l.map (fun p => p.1)) := hperm.map _
  have hcount : ∀ n : Nat,
      ((sortDesc (fun p => p.1) l).map (fun p => p.1)).count n =
        (l.map (fun p => p.1)).count n := fun n => hpermmap.count_eq n
  have hmax : listMax ((sortDesc (fun p => p.1) l).map (fun p => p.1)) =
      listMax (l.map (fun p => p.1)) := by
    apply Nat.le_antisymm
    · exact foldr_max_le (fun x hx => le_foldr_max (hpermmap.mem_iff.mp hx))
    · exact foldr_max_le (fun x hx => le_foldr_max (hpermmap.symm.mem_iff.mp hx))
  cases hs : sortDesc (fun p => p.1) l with
  | nil =>
    have h0 : List.Perm ([] : List (Nat × Candidate)) l := hs ▸ hperm
    exact absurd h0.symm.eq_nil hne
  | cons a t =>
    have hub : ∀ x ∈ (a :: t).map (fun p => p.1), x ≤ a.1 := by
      intro x hx
      rcases List.mem_map.mp hx with ⟨p, hp, hpx⟩
      rcases List.mem_cons.mp hp with hp' | hp'
      · exact hpx ▸ hp' ▸ Nat.le_refl _
      · rw [hs] at hpw
        rw [List.pairwise_cons] at hpw
        exact hpx ▸ hpw.1 p hp'
    have hmax2 : listMax ((a :: t).map (fun p => p.1)) = a.1 :=
      foldr_max_eq (List.mem_map.mpr ⟨a, List.mem_cons_self a t, rfl⟩) hub
    have hM : listMax (l.map (fun p => p.1)) = a.1 := by
      rw [← hmax, hs, hmax2]
    rw [← hcount, hs, hM]
    cases t with
    | nil =>
      simp only [topTwoTied, List.map_cons, List.map_nil]
      constructor
      · intro h
        exact absurd h (by simp)
      · intro h
        rw [List.count_cons_self, List.count_nil] at h
        omega
    | cons b u =>
      simp only [topTwoTied, beq_iff_eq, List.map_cons]
      constructor
      · intro h
        rw [show a.1 = b.1 from h, List.count_cons_self, List.count_cons_self]
        omega
      · intro h
        by_contra hab
        rw [List.count_cons_self, List.count_cons,
            if_neg (by simp only [beq_iff_eq]; exact fun he => hab he.symm)] at h
        have hcu : List.count a.1 (u.map (fun p => p.1)) = 0 := by
          rw [List.count_eq_zero]
          intro hmem2
          rcases List.mem_map.mp hmem2 with ⟨p, hp, hpx⟩
          rw [hs] at hpw
          rw [List.pairwise_cons] at hpw
          have h2 := hpw.2
          rw [List.pairwise_cons] at h2
          have hpb : p.1 ≤ b.1 := h2.1 p hp
          have hba : b.1 ≤ a.1 := hpw.1 b (List.mem_cons_self b u)
          have hne2 : a.1 ≠ b.1 := hab
          omega
        omega

/-! ## Upsert counting lemmas -/

theorem countFilm_map_preserved {g : FilmRow → FilmRow}
    (hg : ∀ r, (g r).tmdb_id = r.tmdb_id) (t : Nat) :
    ∀ db : List FilmRow, countFilm (db.map g) t = countFilm db t := by
  intro db
  induction db with
  | nil => rfl
  | cons r rest ih =>
    unfold countFilm at ih ⊢
    simp only [List.map_cons, List.filter_cons, hg r]
    cases h : r.tmdb_id == t with
    | true => simpa [h] using ih
    | false => simpa [h] using ih

theorem countFilm_append (db₁ db₂ : List FilmRow) (t : Nat) :
    countFilm (db₁ ++ db₂) t = countFilm db₁ t + countFilm db₂ t := by
  unfold countFilm
  rw [List.filter_append, List.length_append]

theorem countFilm_pos_of_find {db : List FilmRow} {t : Nat} {row : FilmRow}
    (h : db.find? (fun r => r.tmdb_id == t) = some row) : 1 ≤ countFilm db t := by
  have hmem : row ∈ db := List.mem_of_find?_eq_some h
  have hpred := List.find?_some h
  have hin : row ∈ db.filter (fun r => r.tmdb_id == t) :=
    List.mem_filter.mpr ⟨hmem, hpred⟩
  unfold countFilm
  exact List.length_pos.mpr (List.ne_nil_of_mem hin)

theorem countFilm_zero_of_find_none {db : List FilmRow} {t : Nat}
    (h : db.find? (fun r => r.tmdb_id == t) = none) : countFilm db t = 0 := by
  unfold countFilm
  rw [List.length_eq_zero]
  rw [List.filter_eq_nil]
  intro r hr
  have := List.find?_eq_none.mp h r hr
  simpa using this

theorem countFilm_upsert {db : List FilmRow} {d : TmdbDetails}
    (h : countFilm db d.id ≤ 1) : countFilm (upsert_film db d).1 d.id = 1 := by
  unfold upsert_film
  cases hf : db.find? (fun r => r.tmdb_id == d.id) with
  | some row =>
    simp only
    rw [countFilm_map_preserved]
    · have := countFilm_pos_of_find hf
      omega
    · intro r
      by_cases hr : (r.tmdb_id == d.id) = true
      · simp [hr]
      · simp only [Bool.not_eq_true] at hr
        simp [hr]
  | none =>
    simp only
    rw [countFilm_append, countFilm_zero_of_find_none hf]
    unfold countFilm
    simp

theorem countFilm_upsert_seen {db : List FilmRow} {d : TmdbDetails}
    (h : countFilm db d.id ≤ 1) : countFilm (upsert_film_seen db d).1 d.id = 1 := by
  unfold upsert_film_seen
  cases hf : db.find? (fun r => r.tmdb_id == d.id) with
  | some row =>
    simp only
    rw [countFilm_map_preserved]
    · have := countFilm_pos_of_find hf
      omega
    · intro r
      by_cases hr : (r.tmdb_id == d.id) = true
      · simp [hr]
      · simp only [Bool.not_eq_true] at hr
        simp [hr]
  | none =>
    simp only
    rw [countFilm_append, countFilm_zero_of_find_none hf]
    unfold countFilm
    simp

theorem countLink_insert {links : List (Nat × Nat)} {fid sid : Nat}
    (h : countLink links (fid, sid) ≤ 1) :
    countLink (insert_film_source links fid sid) (fid, sid) = 1 := by
  unfold insert_film_source
  by_cases hm : links.contains (fid, sid) = true
  · rw [if_pos hm]
    have hpos : 0 < countLink links (fid, sid) := by
      unfold countLink
      exact List.count_pos_iff.mpr (List.elem_iff.mp hm)
    omega
  · simp only [Bool.not_eq_true] at hm
    rw [if_neg (bool_ne_true hm)]
    unfold countLink at h ⊢
    have h0 : links.count (fid, sid) = 0 := by
      rw [List.count_eq_zero]
      intro hmem
      have he : links.contains (fid, sid) = true := List.elem_iff.mpr hmem
      rw [hm] at he
      exact Bool.noConfusion he
    rw [List.count_append, h0]
    simp

theorem applyEligible_after_marker (s : MatchStatus) (t : Option Nat)
    (n : List Char) : applyEligible ⟨s, t, n ++ " | applied".data⟩ = false := by
  unfold applyEligible
  simp [hasAppliedMarker_append n]

/-! ## Watchlist decision-phase lemmas -/

theorem wl_decide_status (dirOf : Nat → List (List Char)) (raw_title : List Char)
    (raw_year : Option Nat) (raw_directors : List Char)
    (results : List Candidate) (used_q : List Char) (hne : results ≠ []) :
    (wl_decide dirOf raw_title raw_year raw_directors results used_q).status =
        .MATCHED ∨
    (wl_decide dirOf raw_title raw_year raw_directors results used_q).status =
        .AMBIGUOUS := by
  unfold wl_decide
  dsimp only
  rw [if_neg hne]
  by_cases hc : (decide (results.length > 1) = true ∧ norm raw_directors ≠ [])
  · rw [if_pos hc]
    cases hscan : wl_scan dirOf (norm raw_directors) (results.take 5) with
    | mk o ids =>
      cases o with
      | some pid => left; rfl
      | none => right; rfl
  · rw [if_neg hc]
    by_cases h2 : decide (results.length > 1) = true
    · rw [if_pos h2]
      right
      rfl
    · rw [if_neg h2]
      left
      rfl

theorem wl_decide_credits (dirOf : Nat → List (List Char)) (raw_title : List Char)
    (raw_year : Option Nat) (raw_directors : List Char)
    (results : List Candidate) (used_q : List Char) :
    (wl_decide dirOf raw_title raw_year raw_directors results used_q).creditIds.length
      ≤ 5 := by
  unfold wl_decide
  dsimp only
  by_cases hne : results = []
  · rw [if_pos hne]
    simp
  · rw [if_neg hne]
    by_cases hc : (decide (results.length > 1) = true ∧ norm raw_directors ≠ [])
    · rw [if_pos hc]
      have hlen : (wl_scan dirOf (norm raw_directors) (results.take 5)).2.length ≤ 5 := by
        calc (wl_scan dirOf (norm raw_directors) (results.take 5)).2.length
            ≤ (results.take 5).length := wl_scan_ids_len _ _ _
          _ ≤ 5 := by simpa using List.length_take_le 5 results
      cases hscan : wl_scan dirOf (norm raw_directors) (results.take 5) with
      | mk o ids =>
        rw [hscan] at hlen
        cases o with
        | some pid => exact hlen
        | none => exact hlen
    · rw [if_neg hc]
      by_cases h2 : decide (results.length > 1) = true
      · rw [if_pos h2]
        simp
      · rw [if_neg h2]
        simp

theorem wl_resolve_fallback_eq (searchFn : List Char → List Candidate)
    (dirOf : Nat → List (List Char)) (raw_title : List Char)
    (raw_year : Option Nat) (raw_directors : List Char)
    (h0 : searchFn raw_title = [])
    (hq2 : simplify_title raw_title ≠ [])
    (hq2ne : simplify_title raw_title ≠ raw_title) :
    wl_resolve searchFn dirOf raw_title raw_year raw_directors =
      wl_decide dirOf raw_title raw_year raw_directors
        (searchFn (simplify_title raw_title)) (simplify_title raw_title) := by
  unfold wl_resolve
  dsimp only
  rw [h0]
  rw [if_pos rfl, if_pos ⟨hq2, hq2ne⟩]

/-! ## Claim theorems -/

/-- C9: for every title with no bracketed annotation, normalization is
idempotent — this holds for both `norm` (seen/watchlist matchers) and
`normBr` (Blu-ray matcher). -/
theorem C9_normalize_idempotent (t : List Char) (h : '[' ∉ t) :
    norm (norm t) = norm t ∧ normBr (normBr t) = normBr t :=
  ⟨norm_idem t, normBr_idem t⟩

/-- C9 witness: the idempotence theorem applied to a concrete title. -/
theorem C9_witness :
    norm (norm "  The  Heat (1995) ".data) = norm "  The  Heat (1995) ".data ∧
    normBr (normBr "  The  Heat (1995) ".data) = normBr "  The  Heat (1995) ".data :=
  C9_normalize_idempotent "  The  Heat (1995) ".data (by decide)

/-- C4 counterexample: three consecutive 429 responses do NOT leave room
for a successful fourth attempt — `tmdb_get` makes only 3 attempts in
total (`for i in range(retry)` with `retry=3`), so the claimed sequence
429, 429, 429, 200 raises the rate-limit failure instead of
succeeding. -/
theorem C4_counterexample :
    (tmdb_get (fun i => if i < 3 then 429 else 200)).1 = .rateLimited := by
  decide

/-- C4 amended: the retry budget is three attempts in total: two
consecutive 429s followed by a 200 on the third attempt succeed, each
429 sleeping `1.5 + i` seconds; a third consecutive 429 exhausts the
budget and raises the rate-limit failure, after which the worker
boundary records `ERROR`. -/
theorem C4_retry_budget :
    (∀ status : Nat → Nat, status 0 = 429 → status 1 = 429 → status 2 = 200 →
       tmdb_get status = (.json 2, [3 / 2, 5 / 2])) ∧
    (∀ status : Nat → Nat, status 0 = 429 → status 1 = 429 → status 2 = 429 →
       tmdb_get status = (.rateLimited, [3 / 2, 5 / 2, 7 / 2])) ∧
    (∀ (r : ImportRec) (e : List Char), (error_update r e).status = .ERROR) := by
  refine ⟨?_, ?_, fun r e => rfl⟩
  · intro status h0 h1 h2
    simp [tmdb_get, tmdb_get_loop, h0, h1, h2]
    norm_num
  · intro status h0 h1 h2
    simp [tmdb_get, tmdb_get_loop, h0, h1, h2]
    norm_num

/-- C4 witness: the amended theorem applied to a concrete status
sequence. -/
theorem C4_witness :
    tmdb_get (fun i => if i < 2 then 429 else 200) = (.json 2, [3 / 2, 5 / 2]) :=
  C4_retry_budget.1 (fun i => if i < 2 then 429 else 200) (by decide) (by decide)
    (by decide)

/-- C8: an exception while processing one record converts that record
alone into `ERROR` with the diagnostic truncated to 900 characters
behind the `match: ` tag (note length at most 907), preserves its
`tmdb_id` (the pending writes being rolled back), leaves every other
record's processing unchanged, and never shortens the batch. -/
theorem C8_worker_boundary :
    ∀ (step : ImportRec → Except (List Char) ImportRec)
      (xs ys : List ImportRec) (r : ImportRec) (e : List Char),
      step r = .error e →
      run_batch step (xs ++ r :: ys) =
        run_batch step xs ++ error_update r e :: run_batch step ys ∧
      (error_update r e).status = .ERROR ∧
      (error_update r e).tmdbId = r.tmdbId ∧
      (error_update r e).note.length ≤ 907 ∧
      ∀ rs : List ImportRec, (run_batch step rs).length = rs.length := by
  intro step xs ys r e he
  refine ⟨?_, rfl, rfl, ?_, ?_⟩
  · unfold run_batch
    rw [List.map_append, List.map_cons]
    unfold process_record
    rw [he]
  · unfold error_update
    simp only [List.length_append, List.length_take]
    have h7 : ("match: ".data).length = 7 := by decide
    rw [h7]
    omega
  · intro rs
    unfold run_batch
    rw [List.length_map]

/-- C8 witness: the worker-boundary theorem applied to a concrete
failing step. -/
theorem C8_witness :
    (error_update ⟨.PENDING, none, []⟩ "boom".data).status = .ERROR :=
  (C8_worker_boundary (fun _ => .error "boom".data) [] []
    ⟨.PENDING, none, []⟩ "boom".data rfl).2.1

/-- C6 counterexample: the claimed iff fails on reachable states — a
record matched with an external id that then fails during apply moves to
`ERROR` while keeping its `tmdb_id`, so the id is set on a state outside
`{MATCHED, AMBIGUOUS, APPLIED}`. -/
theorem C6_counterexample :
    Step ⟨.PENDING, none, []⟩ ⟨.MATCHED, some 5, "score=8".data⟩ ∧
    Step ⟨.MATCHED, some 5, "score=8".data⟩ ⟨.ERROR, some 5, "apply: boom".data⟩ ∧
    specInvariant ⟨.MATCHED, some 5, "score=8".data⟩ ∧
    ¬ specInvariant ⟨.ERROR, some 5, "apply: boom".data⟩ := by
  refine ⟨?_, ?_, by decide, by decide⟩
  · exact Step.matchMatched ⟨.PENDING, none, []⟩ 5 "score=8".data rfl
  · exact Step.applyError ⟨.MATCHED, some 5, "score=8".data⟩ 5 "apply: boom".data
      rfl rfl (by decide)

/-- C6 amended: the invariant the scripts actually preserve is one-way:
`MATCHED` and `APPLIED` records always carry an external id, and every
database transition of the scripts preserves this; the converse of the
spec's iff fails (`ERROR` can retain an id, and the NAS matcher writes
`AMBIGUOUS` without one). -/
theorem C6_id_invariant {r r' : ImportRec} (hstep : Step r r')
    (hinv : idSetInv r) : idSetInv r' := by
  cases hstep <;> simp_all [idSetInv]

/-- C6 witness: the invariant theorem applied to a concrete matched
transition. -/
theorem C6_witness : idSetInv ⟨.MATCHED, some 7, "n".data⟩ :=
  C6_id_invariant (Step.matchMatched ⟨.PENDING, none, []⟩ 7 "n".data rfl)
    (by decide)

/-- C1 counterexample: the implemented scorer tests containment in one
direction only (query inside candidate).  For query title `heat 2` and
candidate `Heat`, the candidate's normalized title is contained in the
query, so the spec's "either direction" rule scores 2, but the code
scores 0. -/
theorem C1_counterexample :
    score_candidate "heat 2".data none
        ⟨949, "Heat".data, "Heat".data, "1995-12-15".data⟩ = 0 ∧
    score_spec "heat 2".data none
        ⟨949, "Heat".data, "Heat".data, "1995-12-15".data⟩ = 2 := by
  decide

/-- C1 amended: the scorer gives +5 for an exact normalized match of
either title field, otherwise +2 only when the query title is contained
in a candidate title (not the reverse direction), otherwise 0; the year
rule adds +3 additively; for the single candidate (Heat, 1995) and query
(Heat, 1995) the score is 8 and the seen matcher writes `MATCHED`. -/
theorem C1_scoring :
    (∀ (tq : List Char) (y : Option Nat) (c : Candidate),
       (norm c.title = tq ∨ norm c.original_title = tq) →
       score_candidate tq y c = 5 + year_bonus y c) ∧
    (∀ (tq : List Char) (y : Option Nat) (c : Candidate),
       ¬(norm c.title = tq ∨ norm c.original_title = tq) →
       (containsSub (norm c.title) tq || containsSub (norm c.original_title) tq)
           = true →
       score_candidate tq y c = 2 + year_bonus y c) ∧
    (∀ (tq : List Char) (y : Option Nat) (c : Candidate),
       ¬(norm c.title = tq ∨ norm c.original_title = tq) →
       (containsSub (norm c.title) tq || containsSub (norm c.original_title) tq)
           = false →
       score_candidate tq y c = year_bonus y c) ∧
    score_candidate (norm "Heat".data) (some 1995)
        ⟨949, "Heat".data, "Heat".data, "1995-12-15".data⟩ = 8 ∧
    (∀ dirOf, seen_resolve dirOf "Heat".data (some 1995) []
        [⟨949, "Heat".data, "Heat".data, "1995-12-15".data⟩] =
      ⟨.MATCHED, some 949, "score=8".data, []⟩) := by
  refine ⟨?_, ?_, ?_, by decide, fun dirOf => rfl⟩
  · intro tq y c h
    unfold score_candidate
    dsimp only
    rw [if_pos h]
  · intro tq y c h hc
    unfold score_candidate
    dsimp only
    rw [if_neg h, if_pos hc]
  · intro tq y c h hc
    unfold score_candidate
    dsimp only
    rw [if_neg h, if_neg (bool_ne_true hc), Nat.zero_add]

/-- C1 witness: the containment rule applied to a concrete query
contained in the candidate title. -/
theorem C1_witness :
    score_candidate "eat".data none ⟨1, "Heat".data, "Heat".data, []⟩ =
      2 + year_bonus none ⟨1, "Heat".data, "Heat".data, []⟩ :=
  C1_scoring.2.1 "eat".data none ⟨1, "Heat".data, "Heat".data, []⟩
    (by decide) (by decide)

/-- C3 counterexample: two identical candidates with no director hint do
produce `AMBIGUOUS` in the Blu-ray matcher, but the tied candidate ids
(31 and 42) are NOT recorded in the note — the note carries only the
best score, and `tmdb_id` stores the first candidate. -/
theorem C3_counterexample :
    br_resolve (fun _ => []) "Heat".data []
        [⟨31, "Heat".data, "Heat".data, "1995-12-15".data⟩,
         ⟨42, "Heat".data, "Heat".data, "1995-12-15".data⟩] =
      ⟨.AMBIGUOUS, some 31, "ambiguous | best_score=5".data, []⟩ ∧
    containsSub "ambiguous | best_score=5".data (natToChars 31) = false ∧
    containsSub "ambiguous | best_score=5".data (natToChars 42) = false := by
  decide

/-- C3 amended: in the Blu-ray matcher a result set is flagged ambiguous
iff at least two scored candidates exist and the top two scores are
equal — equivalently, the maximal score is attained at least twice; with
no director hint such a record is written `AMBIGUOUS` with the
first-ranked candidate's id in `tmdb_id` and a note carrying only the
best score (the tied ids are not listed). -/
theorem C3_ambiguity :
    (∀ (title_clean : List Char) (results : List Candidate),
       results ≠ [] →
       (topTwoTied (br_sorted title_clean results) = true ↔
         2 ≤ List.count
               (listMax ((br_scored title_clean results).map (fun p => p.1)))
               ((br_scored title_clean results).map (fun p => p.1)))) ∧
    (∀ (dirOf : Nat → List (List Char)) (title_clean : List Char)
       (results : List Candidate),
       topTwoTied (br_sorted title_clean results) = true →
       ∃ bs best rest,
         br_sorted title_clean results = (bs, best) :: rest ∧
         br_resolve dirOf title_clean [] results =
           ⟨.AMBIGUOUS, some best.id,
            "ambiguous | best_score=".data ++ natToChars bs, []⟩) := by
  constructor
  · intro title_clean results hne
    have hne2 : br_scored title_clean results ≠ [] := by
      unfold br_scored
      cases results with
      | nil => exact absurd rfl hne
      | cons c cs => simp
    exact topTwoTied_iff_count hne2
  · intro dirOf title_clean results htied
    have hresne : results ≠ [] := by
      intro hr
      subst hr
      simp [br_sorted, br_scored, sortDesc, topTwoTied] at htied
    cases hs : br_sorted title_clean results with
    | nil => rw [hs] at htied; simp [topTwoTied] at htied
    | cons a t =>
      cases t with
      | nil => rw [hs] at htied; simp [topTwoTied] at htied
      | cons b u =>
        refine ⟨a.1, a.2, b :: u, rfl, ?_⟩
        rw [hs] at htied
        unfold topTwoTied at htied
        unfold br_resolve
        rw [if_neg hresne, hs]
        have hamb : (b.1 == a.1) = true := by
          simp only [beq_iff_eq] at htied ⊢
          exact htied.symm
        simp only [hamb]
        rw [if_neg (by simp : ¬(True ∧ ([] : List Char) ≠ []))]
        rfl

/-- C3 witness: the tie characterization applied to a concrete
two-candidate result set. -/
theorem C3_witness :
    topTwoTied (br_sorted "Heat".data
        [⟨31, "Heat".data, "Heat".data, "1995-12-15".data⟩,
         ⟨42, "Heat".data, "Heat".data, "1995-12-15".data⟩]) = true ↔
      2 ≤ List.count
            (listMax ((br_scored "Heat".data
                [⟨31, "Heat".data, "Heat".data, "1995-12-15".data⟩,
                 ⟨42, "Heat".data, "Heat".data, "1995-12-15".data⟩]).map
              (fun p => p.1)))
            ((br_scored "Heat".data
                [⟨31, "Heat".data, "Heat".data, "1995-12-15".data⟩,
                 ⟨42, "Heat".data, "Heat".data, "1995-12-15".data⟩]).map
              (fun p => p.1)) :=
  C3_ambiguity.1 "Heat".data
    [⟨31, "Heat".data, "Heat".data, "1995-12-15".data⟩,
     ⟨42, "Heat".data, "Heat".data, "1995-12-15".data⟩] (by decide)

/-- C5 counterexample: the seen matcher has no fallback query — a record
whose raw title returns zero results goes straight to `NOT_FOUND` even
though the simplified-keyword query would have returned a candidate. -/
theorem C5_counterexample :
    seen_run
        (fun q => if q = "heat".data then
          [⟨949, "Heat".data, "Heat".data, "1995-12-15".data⟩] else [])
        (fun _ => []) "The Heat [import]".data none [] =
      ⟨.NOT_FOUND, none, "no result for 'The Heat [import]'".data, []⟩ ∧
    (fun q => if q = "heat".data then
        [⟨949, "Heat".data, "Heat".data, "1995-12-15".data⟩]
      else ([] : List Candidate)) (simplify_title "The Heat [import]".data) ≠ [] := by
  decide

/-- C5 amended: only the watchlist matcher retries — when the primary
search returns zero and the simplified query is nonempty and differs
from the raw title, it issues exactly the two queries and, when the
fallback returns candidates, ends in `MATCHED` or `AMBIGUOUS`; the seen
matcher transitions to `NOT_FOUND` immediately on zero primary
results. -/
theorem C5_fallback :
    (∀ (searchFn : List Char → List Candidate) (dirOf : Nat → List (List Char))
       (raw_title : List Char) (raw_year : Option Nat) (raw_directors : List Char),
       searchFn raw_title = [] →
       simplify_title raw_title ≠ [] →
       simplify_title raw_title ≠ raw_title →
       searchFn (simplify_title raw_title) ≠ [] →
       wl_queries searchFn raw_title = [raw_title, simplify_title raw_title] ∧
       ((wl_resolve searchFn dirOf raw_title raw_year raw_directors).status =
           .MATCHED ∨
        (wl_resolve searchFn dirOf raw_title raw_year raw_directors).status =
           .AMBIGUOUS)) ∧
    (∀ (searchFn : List Char → List Candidate) (dirOf : Nat → List (List Char))
       (raw_title : List Char) (raw_year : Option Nat) (raw_directors : List Char),
       searchFn raw_title = [] →
       (seen_run searchFn dirOf raw_title raw_year raw_directors).status =
         .NOT_FOUND) := by
  constructor
  · intro searchFn dirOf raw_title raw_year raw_directors h0 hq2 hq2ne hfb
    constructor
    · unfold wl_queries
      rw [if_pos h0]
      dsimp only
      rw [if_pos ⟨hq2, hq2ne⟩]
    · rw [wl_resolve_fallback_eq searchFn dirOf raw_title raw_year raw_directors
        h0 hq2 hq2ne]
      exact wl_decide_status dirOf raw_title raw_year raw_directors
        (searchFn (simplify_title raw_title)) (simplify_title raw_title) hfb
  · intro searchFn dirOf raw_title raw_year raw_directors h0
    unfold seen_run seen_resolve
    rw [h0, if_pos rfl]

/-- C5 witness: the fallback theorem applied to a concrete record with
zero primary results and a nonzero fallback. -/
theorem C5_witness :
    wl_queries
        (fun q => if q = "heat".data then
          [⟨949, "Heat".data, "Heat".data, "1995-12-15".data⟩] else [])
        "The Heat [import]".data =
      ["The Heat [import]".data, simplify_title "The Heat [import]".data] :=
  (C5_fallback.1
    (fun q => if q = "heat".data then
      [⟨949, "Heat".data, "Heat".data, "1995-12-15".data⟩] else [])
    (fun _ => []) "The Heat [import]".data none []
    (by decide) (by decide) (by decide) (by decide)).1

/-- C10: in the seen matcher the director loop runs on every tie, even
with an empty normalized director hint; since the empty string is a
substring of every name, the record is `MATCHED` to the first of the top
three scored candidates having at least one credited director, and
`AMBIGUOUS` only when none of them has any. -/
theorem C10_empty_hint :
    ∀ (dirOf : Nat → List (List Char)) (raw_title : List Char)
      (raw_year : Option Nat) (raw_directors : List Char)
      (results : List Candidate),
      results ≠ [] →
      norm raw_directors = [] →
      topTwoTied (seen_sorted raw_title raw_year results) = true →
      (∀ p, ((seen_sorted raw_title raw_year results).take 3).find?
              (fun q => !(dirOf q.2.id).isEmpty) = some p →
         (seen_resolve dirOf raw_title raw_year raw_directors results).status =
             .MATCHED ∧
         (seen_resolve dirOf raw_title raw_year raw_directors results).tmdbId =
             some p.2.id) ∧
      (((seen_sorted raw_title raw_year results).take 3).find?
              (fun q => !(dirOf q.2.id).isEmpty) = none →
         (seen_resolve dirOf raw_title raw_year raw_directors results).status =
             .AMBIGUOUS) := by
  intro dirOf raw_title raw_year raw_directors results hne hdir htied
  have hpred : (scanHit dirOf []) = (fun q : Nat × Candidate =>
      !(dirOf q.2.id).isEmpty) := by
    funext q
    unfold scanHit
    exact dirOverlap_nil (dirOf q.2.id)
  cases hs : seen_sorted raw_title raw_year results with
  | nil => rw [hs] at htied; simp [topTwoTied] at htied
  | cons a t =>
    cases t with
    | nil => rw [hs] at htied; simp [topTwoTied] at htied
    | cons b u =>
      rw [hs] at htied
      unfold topTwoTied at htied
      have hresolve : seen_resolve dirOf raw_title raw_year raw_directors results =
          match director_scan dirOf [] ((a :: b :: u).take 3) with
          | (some c, ids) =>
            { status := .MATCHED, tmdbId := some c.id,
              note := ("score=".data ++ natToChars a.1) ++ " | director_match".data,
              creditIds := ids }
          | (none, ids) =>
            { status := .AMBIGUOUS, tmdbId := some a.2.id,
              note := "score=".data ++ natToChars a.1, creditIds := ids } := by
        unfold seen_resolve
        rw [if_neg hne, hdir, hs]
        have hamb : (b.1 == a.1) = true := by
          simp only [beq_iff_eq] at htied ⊢
          exact htied.symm
        simp only [hamb]
        rfl
      rw [director_scan_eq, hpred] at hresolve
      constructor
      · intro p hfind
        rw [hfind] at hresolve
        rw [hresolve]
        exact ⟨rfl, rfl⟩
      · intro hfind
        rw [hfind] at hresolve
        rw [hresolve]
        rfl

/-- C10 witness: the empty-hint disambiguation applied to a concrete
tie where the second candidate is the first with a credited director. -/
theorem C10_witness :
    (seen_resolve (fun i => if i = 42 then ["michael mann".data] else [])
        "Heat".data none []
        [⟨31, "Heat".data, "Heat".data, []⟩, ⟨42, "Heat".data, "Heat".data, []⟩]).status =
      .MATCHED :=
  ((C10_empty_hint (fun i => if i = 42 then ["michael mann".data] else [])
      "Heat".data none []
      [⟨31, "Heat".data, "Heat".data, []⟩, ⟨42, "Heat".data, "Heat".data, []⟩]
      (by decide) (by decide) (by decide)).1
    ((5, ⟨42, "Heat".data, "Heat".data, []⟩) : Nat × Candidate) (by decide)).1

/-- C2 counterexample: the watchlist matcher's disambiguation scans the
first FIVE raw results, not the top three tied candidates — with five
tied candidates and a non-matching hint it calls the credits endpoint
five times. -/
theorem C2_counterexample :
    ([⟨1, "Heat".data, "Heat".data, []⟩, ⟨2, "Heat".data, "Heat".data, []⟩,
      ⟨3, "Heat".data, "Heat".data, []⟩, ⟨4, "Heat".data, "Heat".data, []⟩,
      ⟨5, "Heat".data, "Heat".data, []⟩].map
        (fun c => score_candidate (norm "heat".data) none c)) = [5, 5, 5, 5, 5] ∧
    (wl_resolve
        (fun _ => [⟨1, "Heat".data, "Heat".data, []⟩, ⟨2, "Heat".data, "Heat".data, []⟩,
          ⟨3, "Heat".data, "Heat".data, []⟩, ⟨4, "Heat".data, "Heat".data, []⟩,
          ⟨5, "Heat".data, "Heat".data, []⟩])
        (fun _ => ["xavier dolan".data]) "heat".data none
        "someone".data).creditIds = [1, 2, 3, 4, 5] := by
  decide

/-- C2 amended: in the Blu-ray matcher, a tie with a nonempty director
hint triggers a credits fetch for at most the top three candidates by
score (tied or not), stopping early at the first whose director set
overlaps the hint; a hit yields `MATCHED` to that candidate with the
fetched ids being exactly the prefix scanned, a miss on all three yields
`AMBIGUOUS`; the watchlist matcher instead fetches credits for up to
five raw results. -/
theorem C2_director_disambiguation :
    (∀ (dirOf : Nat → List (List Char)) (title_clean dir_hint : List Char)
       (results : List Candidate),
       topTwoTied (br_sorted title_clean results) = true →
       dir_hint ≠ [] →
       (br_resolve dirOf title_clean dir_hint results).creditIds.length ≤ 3 ∧
       (∀ p, ((br_sorted title_clean results).take 3).find?
               (scanHit dirOf dir_hint) = some p →
          (br_resolve dirOf title_clean dir_hint results).status = .MATCHED ∧
          (br_resolve dirOf title_clean dir_hint results).tmdbId = some p.2.id ∧
          (br_resolve dirOf title_clean dir_hint results).creditIds =
            (((br_sorted title_clean results).take 3).takeWhile
                (fun q => !scanHit dirOf dir_hint q)).map (fun q => q.2.id) ++
              [p.2.id]) ∧
       (((br_sorted title_clean results).take 3).find?
           (scanHit dirOf dir_hint) = none →
          (br_resolve dirOf title_clean dir_hint results).status = .AMBIGUOUS ∧
          (br_resolve dirOf title_clean dir_hint results).creditIds =
            ((br_sorted title_clean results).take 3).map (fun q => q.2.id))) ∧
    (∀ (searchFn : List Char → List Candidate) (dirOf : Nat → List (List Char))
       (raw_title : List Char) (raw_year : Option Nat) (raw_directors : List Char),
       (wl_resolve searchFn dirOf raw_title raw_year
           raw_directors).creditIds.length ≤ 5) := by
  constructor
  · intro dirOf title_clean dir_hint results htied hhint
    have hresne : results ≠ [] := by
      intro hr
      subst hr
      simp [br_sorted, br_scored, sortDesc, topTwoTied] at htied
    cases hs : br_sorted title_clean results with
    | nil => rw [hs] at htied; simp [topTwoTied] at htied
    | cons a t =>
      cases t with
      | nil => rw [hs] at htied; simp [topTwoTied] at htied
      | cons b u =>
        rw [hs] at htied
        unfold topTwoTied at htied
        have hresolve : br_resolve dirOf title_clean dir_hint results =
            match director_scan dirOf dir_hint ((a :: b :: u).take 3) with
            | (some c, ids) =>
              { status := .MATCHED, tmdbId := some c.id,
                note := "single result | ".data ++
                  ("best_score=".data ++ natToChars a.1) ++
                  " | dir_match=".data ++ dir_hint,
                creditIds := ids }
            | (none, ids) =>
              { status := .AMBIGUOUS, tmdbId := some a.2.id,
                note := "ambiguous | ".data ++
                  ("best_score=".data ++ natToChars a.1),
                creditIds := ids } := by
          unfold br_resolve
          rw [if_neg hresne, hs]
          have hamb : (b.1 == a.1) = true := by
            simp only [beq_iff_eq] at htied ⊢
            exact htied.symm
          simp only [hamb]
          rw [if_pos (⟨trivial, hhint⟩ : True ∧ dir_hint ≠ [])]
        have hcred : (br_resolve dirOf title_clean dir_hint results).creditIds =
            (director_scan dirOf dir_hint ((a :: b :: u).take 3)).2 := by
          cases hscan : director_scan dirOf dir_hint ((a :: b :: u).take 3) with
          | mk o ids =>
            rw [hscan] at hresolve
            cases o with
            | some c => rw [hresolve]
            | none => rw [hresolve]
        refine ⟨?_, ?_, ?_⟩
        · rw [hcred]
          calc (director_scan dirOf dir_hint ((a :: b :: u).take 3)).2.length
              ≤ ((a :: b :: u).take 3).length := director_scan_ids_len _ _ _
            _ ≤ 3 := by simpa using List.length_take_le 3 (a :: b :: u)
        · intro p hfind
          rw [director_scan_eq, hfind] at hresolve
          rw [hresolve]
          exact ⟨rfl, rfl, rfl⟩
        · intro hfind
          have hall : ∀ x ∈ (a :: b :: u).take 3,
              scanHit dirOf dir_hint x = false := by
            intro x hx
            have hnx := List.find?_eq_none.mp hfind x hx
            simpa using hnx
          have htw : ((a :: b :: u).take 3).takeWhile
              (fun q => !scanHit dirOf dir_hint q) = (a :: b :: u).take 3 :=
            takeWhile_neg_all _ _ hall
          rw [director_scan_eq, hfind] at hresolve
          rw [hresolve]
          refine ⟨rfl, ?_⟩
          rw [htw]
          simp
  · intro searchFn dirOf raw_title raw_year raw_directors
    unfold wl_resolve
    exact wl_decide_credits dirOf raw_title raw_year raw_directors _ _

/-- C2 witness: the Blu-ray disambiguation theorem applied to a concrete
tie whose hint matches the second candidate's director. -/
theorem C2_witness :
    (br_resolve (fun i => if i = 42 then ["christopher nolan".data] else ["x".data])
        "Heat".data "nolan".data
        [⟨31, "Heat".data, "Heat".data, []⟩,
         ⟨42, "Heat".data, "Heat".data, []⟩]).creditIds.length ≤ 3 :=
  (C2_director_disambiguation.1
    (fun i => if i = 42 then ["christopher nolan".data] else ["x".data])
    "Heat".data "nolan".data
    [⟨31, "Heat".data, "Heat".data, []⟩, ⟨42, "Heat".data, "Heat".data, []⟩]
    (by decide) (by decide)).1

/-- C7 counterexample: the seen-list applier appends the idempotency
marker but never updates `match_status` — an applied record stays
`MATCHED`, not `APPLIED` as the claim states. -/
theorem C7_counterexample :
    (apply_seen (fun t => ⟨t, "Heat".data, "Heat".data, "1995-12-15".data,
        some 170, [], [], []⟩) 1 none none ⟨[], [], []⟩
        ⟨.MATCHED, some 949, "score=8".data⟩).2.status = .MATCHED ∧
    (apply_seen (fun t => ⟨t, "Heat".data, "Heat".data, "1995-12-15".data,
        some 170, [], [], []⟩) 1 none none ⟨[], [], []⟩
        ⟨.MATCHED, some 949, "score=8".data⟩).2.status ≠ .APPLIED := by
  decide

/-- C7 amended: the Blu-ray applier upserts exactly one film row keyed by
the external id and one source-linkage row, appends the marker and sets
`APPLIED`; the marker makes the record ineligible, so a second apply is
a no-op before any write.  The seen-list applier does the same writes
but leaves `match_status` at `MATCHED`, relying on the marker alone for
idempotency. -/
theorem C7_apply_idempotent :
    (∀ (detailsOf : Nat → TmdbDetails) (src_id : Nat) (row : BrRowData)
       (db : BrDB) (r : ImportRec) (t : Nat),
       r.tmdbId = some t →
       (detailsOf t).id = t →
       applyEligible r = true →
       countFilm db.films t ≤ 1 →
       countLink db.film_sources
         ((upsert_film db.films (detailsOf t)).2, src_id) ≤ 1 →
       (apply_br detailsOf src_id row db r).2.status = .APPLIED ∧
       (apply_br detailsOf src_id row db r).2.note =
         r.note ++ " | applied".data ∧
       (apply_br detailsOf src_id row db r).2.tmdbId = r.tmdbId ∧
       countFilm (apply_br detailsOf src_id row db r).1.films t = 1 ∧
       countLink (apply_br detailsOf src_id row db r).1.film_sources
         ((upsert_film db.films (detailsOf t)).2, src_id) = 1 ∧
       applyEligible (apply_br detailsOf src_id row db r).2 = false ∧
       apply_br detailsOf src_id row (apply_br detailsOf src_id row db r).1
           (apply_br detailsOf src_id row db r).2 =
         apply_br detailsOf src_id row db r) ∧
    (∀ (detailsOf : Nat → TmdbDetails) (uid : Nat)
       (watched : Option (List Char)) (rating : Option Nat)
       (db : SeenDB) (r : ImportRec),
       applyEligible r = true →
       (apply_seen detailsOf uid watched rating db r).2.status = r.status ∧
       (apply_seen detailsOf uid watched rating db r).2.note =
         r.note ++ " | applied".data ∧
       applyEligible (apply_seen detailsOf uid watched rating db r).2 = false ∧
       apply_seen detailsOf uid watched rating
           (apply_seen detailsOf uid watched rating db r).1
           (apply_seen detailsOf uid watched rating db r).2 =
         apply_seen detailsOf uid watched rating db r) := by
  constructor
  · intro detailsOf src_id row db r t hid hdid helig hcf hcl
    have happ : apply_br detailsOf src_id row db r =
        (⟨(upsert_film db.films (detailsOf t)).1,
          insert_film_source db.film_sources
            (upsert_film db.films (detailsOf t)).2 src_id,
          (upsert_genres (detailsOf t).genres db.genres db.film_genres
            (upsert_film db.films (detailsOf t)).2).1,
          (upsert_genres (detailsOf t).genres db.genres db.film_genres
            (upsert_film db.films (detailsOf t)).2).2,
          upsert_copy db.physical_copies
            (upsert_film db.films (detailsOf t)).2 row⟩,
         ⟨.APPLIED, r.tmdbId, r.note ++ " | applied".data⟩) := by
      unfold apply_br
      rw [if_pos helig, hid]
    rw [happ]
    have hfilm : countFilm (upsert_film db.films (detailsOf t)).1 t = 1 := by
      have hc2 : countFilm db.films (detailsOf t).id ≤ 1 := by
        rw [hdid]
        exact hcf
      have := countFilm_upsert hc2
      rw [hdid] at this
      exact this
    have hmark : applyEligible
        (⟨.APPLIED, r.tmdbId, r.note ++ " | applied".data⟩ : ImportRec) = false :=
      applyEligible_after_marker .APPLIED r.tmdbId r.note
    refine ⟨rfl, rfl, rfl, hfilm, countLink_insert hcl, hmark, ?_⟩
    unfold apply_br
    rw [if_neg (bool_ne_true hmark)]
  · intro detailsOf uid watched rating db r helig
    have hid2 : ∃ t, r.tmdbId = some t := by
      unfold applyEligible at helig
      simp only [Bool.and_eq_true] at helig
      rcases helig with ⟨⟨_, h2⟩, _⟩
      cases ht : r.tmdbId with
      | some v => exact ⟨v, rfl⟩
      | none => rw [ht] at h2; exact absurd h2 (by decide)
    rcases hid2 with ⟨t, hid⟩
    have happ : apply_seen detailsOf uid watched rating db r =
        (⟨(upsert_film_seen db.films (detailsOf t)).1,
          upsert_user_film db.user_films uid
            (upsert_film_seen db.films (detailsOf t)).2 rating
            (normalize_date watched),
          match normalize_date watched with
          | some w => db.watch_events ++
              [⟨uid, (upsert_film_seen db.films (detailsOf t)).2, w, rating,
                "senscritique_import".data⟩]
          | none => db.watch_events⟩,
         ⟨r.status, r.tmdbId, r.note ++ " | applied".data⟩) := by
      unfold apply_seen
      rw [if_pos helig, hid]
    rw [happ]
    have hmark : applyEligible
        (⟨r.status, r.tmdbId, r.note ++ " | applied".data⟩ : ImportRec) = false :=
      applyEligible_after_marker r.status r.tmdbId r.note
    refine ⟨rfl, rfl, hmark, ?_⟩
    unfold apply_seen
    rw [if_neg (bool_ne_true hmark)]

/-- C7 witness: the Blu-ray apply theorem at a concrete eligible record
over an empty target store. -/
theorem C7_witness :
    (apply_br (fun t => ⟨t, "Heat".data, "Heat".data, "1995-12-15".data,
        some 170, [], [], []⟩) 3 ⟨[], none, none, none, none⟩
        ⟨[], [], [], [], []⟩ ⟨.MATCHED, some 949, "score=8".data⟩).2.status =
      .APPLIED :=
  (C7_apply_idempotent.1
    (fun t => ⟨t, "Heat".data, "Heat".data, "1995-12-15".data,
      some 170, [], [], []⟩) 3 ⟨[], none, none, none, none⟩
    ⟨[], [], [], [], []⟩ ⟨.MATCHED, some 949, "score=8".data⟩ 949
    rfl rfl (by decide) (by decide) (by decide)).1

end ProjetIA
